import Mathlib

set_option maxHeartbeats 1000000
set_option maxRecDepth 8000

/-!
Shallow embedding of the sudoku solver in `src/sudo.py` and verification of
the specification claims about it.

Modelling conventions:
* Python `set`s of small integers are modelled as ascending, duplicate-free
  `List Nat` values; set operations (`&`, `-`, `<=`, iteration in ascending
  order) become the list operations `interL`, `diffL`, `subB`, `insertS`.
* A `Square` keeps only its mutable state (`value`, `candidates`); its
  index is its position in `Grid.squares` (`Square._index` always equals
  that position in the Python code, squares are never moved).
* The move stack stores structured `Move` values; `Move.assign i d` stands
  for the Python log line `"<i>=<d>"` and `Move.removeC i ds` for the line
  `"<i>-=<ds>"` where `ds` is the (possibly empty) digit string.
* Python exceptions (`ValueError` from the setters and `keep_candidates`,
  `list.remove` on a missing element, `set.union()` with no arguments) are
  modelled with `Except` / an error component; `set_value` returns the
  partially mutated grid together with the error, because in Python the
  mutations performed before the `raise` persist.
-/

/-- The list `Square.digits = range(1, 10)` of valid digits. -/
def digitsL : List Nat := [1, 2, 3, 4, 5, 6, 7, 8, 9]

/-- Mutable state of a Sudoku square (class `Square`): its value (`None`
for an unsolved square) and its candidate set. -/
structure Square where
  value : Option Nat
  candidates : List Nat
deriving DecidableEq, Repr

instance : Inhabited Square := ⟨⟨none, []⟩⟩

/-- One entry of the move stack.  `assign i d` is the Python line
`"<i>=<d>"`, `removeC i ds` is `"<i>-=<ds>"` with digit string `ds`. -/
inductive Move where
  | assign (idx : Nat) (digit : Nat)
  | removeC (idx : Nat) (ds : List Nat)
deriving DecidableEq, Repr

/-- The failure modes of the embedded code.  `invalidValue` is the
`ValueError` raised by the `value` setter, `invalidCandidates` the
`ValueError` raised by `keep_candidates` (the spec calls it
`ContradictionError`), `removeMissing` the `ValueError` raised by
`list.remove` on a missing element, and `emptySetUnion` the `TypeError`
raised by `set.union(*[])` in `find_x_wings`. -/
inductive SudokuError where
  | invalidValue
  | invalidCandidates
  | removeMissing
  | emptySetUnion
deriving DecidableEq, Repr

/-- The grid (classes `Grid` / `Puzzle`): the 81 squares in index order,
the grid-level unsolved list, the per-row / per-column / per-box unsolved
lists (each a list of square indices in creation order) and the move
stack. -/
structure Grid where
  squares : List Square
  unsolvedSquares : List Nat
  rowUnsolved : List (List Nat)
  colUnsolved : List (List Nat)
  boxUnsolved : List (List Nat)
  moveStack : List Move
deriving DecidableEq, Repr

def getSq (g : Grid) (i : Nat) : Square := g.squares.getD i default

def setSq (g : Grid) (i : Nat) (s : Square) : Grid :=
  { g with squares := g.squares.set i s }

def candAt (g : Grid) (i : Nat) : List Nat := (getSq g i).candidates

def valAt (g : Grid) (i : Nat) : Option Nat := (getSq g i).value

/-- Number of moves on the move stack (`len(self.move_stack)`). -/
def mcount (g : Grid) : Nat := g.moveStack.length

/-- Total number of candidates on the grid; the termination measure. -/
def candTotal (g : Grid) : Nat := (g.squares.map (fun s => s.candidates.length)).sum

/-- `row_index = i // 9` -/
def rowOf (i : Nat) : Nat := i / 9

/-- `column_index = i % 9` -/
def colOf (i : Nat) : Nat := i % 9

/-- `box_index = ((row // 3) * 3) + (column // 3)` -/
def boxOf (i : Nat) : Nat := (i / 9 / 3) * 3 + (i % 9) / 3

/-- Set intersection `a & b` on the list model (keeps the order of `a`). -/
def interL (a b : List Nat) : List Nat := a.filter (fun x => decide (x ∈ b))

/-- Set difference `a - b` on the list model. -/
def diffL (a b : List Nat) : List Nat := a.filter (fun x => decide (x ∉ b))

/-- Set inclusion `a <= b` as a boolean. -/
def subB (a b : List Nat) : Bool := a.all (fun x => decide (x ∈ b))

/-- Insert into an ascending duplicate-free list, keeping it ascending
and duplicate-free (used to build the iteration order of Python sets). -/
def insertS (x : Nat) : List Nat → List Nat
  | [] => [x]
  | y :: ys => if x < y then x :: y :: ys else if x = y then y :: ys else y :: insertS x ys

/-- Set union accumulating with `insertS`. -/
def unionS (a b : List Nat) : List Nat := b.foldl (fun acc x => insertS x acc) a

/-- `list.remove`: removes the first occurrence, fails if absent. -/
def listRemove (l : List Nat) (x : Nat) : Option (List Nat) :=
  if x ∈ l then some (l.erase x) else none

/-- `Square.remove_candidate` (sudo.py lines 107-113): discard the value
from the candidate set if present, log `"<i>-=<v>"`, report whether a
change occurred. -/
def remove_candidate (g : Grid) (i : Nat) (v : Nat) : Grid × Bool :=
  let s := getSq g i
  if v ∈ s.candidates then
    let g1 := setSq g i { s with candidates := s.candidates.erase v }
    ({ g1 with moveStack := g1.moveStack ++ [Move.removeC i [v]] }, true)
  else
    (g, false)

/-- `Square.keep_candidates` (sudo.py lines 93-105): restrict the
candidate set to the given set.  Requires all given values to be digits
and the intersection with the current candidates to be non-empty,
otherwise raises `ValueError` (the spec's `ContradictionError`).  If the
current candidates are already a subset of the given set, reports no
change.  Otherwise intersects and logs
`"<i>-=" + "".join(set(self._candidates - v))` -- note the Python code
computes this difference AFTER the assignment `self._candidates &= v`,
so the logged digit set is `diffL (interL old v) v`. -/
def keep_candidates (g : Grid) (i : Nat) (v : List Nat) :
    Except SudokuError (Grid × Bool) :=
  let s := getSq g i
  if v.all (fun x => decide (x ∈ digitsL)) && !(interL s.candidates v).isEmpty then
    if subB s.candidates v then
      .ok (g, false)
    else
      let s1 : Square := { s with candidates := interL s.candidates v }
      let g1 := setSq g i s1
      .ok ({ g1 with
              moveStack := g1.moveStack ++ [Move.removeC i (diffL s1.candidates v)] },
           true)
  else
    .error SudokuError.invalidCandidates

/-- The `Square.value` setter (sudo.py lines 67-77): if the digit is in
range, set the value, log `"<i>=<v>"`, then remove the square from its
row's, column's and box's unsolved lists in that order.  Each `remove`
raises if the square is not in the list; mutations performed before the
raise persist, so the partially mutated grid is returned together with
the error. -/
def set_value (g : Grid) (i : Nat) (v : Nat) : Grid × Option SudokuError :=
  if v ∈ digitsL then
    let s := getSq g i
    let g1 := setSq g i { s with value := some v }
    let g2 := { g1 with moveStack := g1.moveStack ++ [Move.assign i v] }
    match listRemove (g2.rowUnsolved.getD (rowOf i) []) i with
    | none => (g2, some SudokuError.removeMissing)
    | some rl =>
      let g3 := { g2 with rowUnsolved := g2.rowUnsolved.set (rowOf i) rl }
      match listRemove (g3.colUnsolved.getD (colOf i) []) i with
      | none => (g3, some SudokuError.removeMissing)
      | some cl =>
        let g4 := { g3 with colUnsolved := g3.colUnsolved.set (colOf i) cl }
        match listRemove (g4.boxUnsolved.getD (boxOf i) []) i with
        | none => (g4, some SudokuError.removeMissing)
        | some bl =>
          ({ g4 with boxUnsolved := g4.boxUnsolved.set (boxOf i) bl }, none)
  else
    (g, some SudokuError.invalidValue)

/-- A freshly constructed square (`Square.__init__`): a given digit
yields a solved square with empty candidates, `0` yields an unsolved
square holding all nine candidates. -/
def mkSquare (v : Nat) : Square :=
  if v = 0 then ⟨none, digitsL⟩ else ⟨some v, []⟩

/-- Square indices of row `r` in creation order. -/
def rowIdxs (r : Nat) : List Nat := (List.range 9).map (fun c => 9 * r + c)

/-- Square indices of column `c` in creation order. -/
def colIdxs (c : Nat) : List Nat := (List.range 9).map (fun r => 9 * r + c)

/-- Square indices of box `b` in creation order. -/
def boxIdxs (b : Nat) : List Nat :=
  (List.range 9).map (fun j => 9 * (3 * (b / 3) + j / 3) + (3 * (b % 3) + j % 3))

/-- `Grid.__init__` / `Puzzle.__init__`: build the squares from the 81
input digits (0 = blank) and record every blank square, in creation
order, in the grid-level and per-unit unsolved lists.  The move stack
starts empty. -/
def mkGrid (values : List Nat) : Grid where
  squares := values.map mkSquare
  unsolvedSquares := (List.range values.length).filter (fun i => decide (values.getD i 1 = 0))
  rowUnsolved := (List.range 9).map
    (fun r => (rowIdxs r).filter (fun i => decide (values.getD i 1 = 0)))
  colUnsolved := (List.range 9).map
    (fun c => (colIdxs c).filter (fun i => decide (values.getD i 1 = 0)))
  boxUnsolved := (List.range 9).map
    (fun b => (boxIdxs b).filter (fun i => decide (values.getD i 1 = 0)))
  moveStack := []

/-- Tag of a unit (`Unit.unit` in sudo.py is the string "Row" / "Column"
/ "Box"). -/
inductive UnitKind where
  | row | column | box
deriving DecidableEq, Repr

/-- The full square list of a unit (`Unit.squares`), derived from the
fixed construction-time geometry. -/
def unitIdxs : UnitKind → Nat → List Nat
  | .row, u => rowIdxs u
  | .column, u => colIdxs u
  | .box, u => boxIdxs u

/-- The live unsolved-square list of a unit (`Unit.unsolved_squares`). -/
def unitUnsolved (g : Grid) : UnitKind → Nat → List Nat
  | .row, u => g.rowUnsolved.getD u []
  | .column, u => g.colUnsolved.getD u []
  | .box, u => g.boxUnsolved.getD u []

/-- `self.rows + self.columns + self.boxes`. -/
def allUnits : List (UnitKind × Nat) :=
  ((List.range 9).map (fun u => (UnitKind.row, u))) ++
  ((List.range 9).map (fun u => (UnitKind.column, u))) ++
  ((List.range 9).map (fun u => (UnitKind.box, u)))

/-- `Grid.is_solved`: every square has a value. -/
def is_solved (g : Grid) : Bool := g.squares.all (fun s => decide (s.value ≠ none))

/-- `[x.value for x in self.squares if x.value is not None]` of a unit. -/
def unitSolvedVals (g : Grid) (k : UnitKind) (u : Nat) : List (Option Nat) :=
  ((unitIdxs k u).map (fun i => valAt g i)).filter (fun o => decide (o ≠ none))

/-- `Unit.is_valid` (sudo.py lines 412-418): nine squares and no
duplicate solved values (`len(set(values)) == len(values)`). -/
def unit_is_valid (g : Grid) (k : UnitKind) (u : Nat) : Bool :=
  decide ((unitIdxs k u).length = 9) && decide (unitSolvedVals g k u).Nodup

/-- `Grid.is_valid`: all 27 units are valid. -/
def is_valid (g : Grid) : Bool := allUnits.all (fun ku => unit_is_valid g ku.1 ku.2)

/-- Fold a fallible step over a list, propagating the first error
(models a Python loop whose body may raise). -/
def foldE {α β : Type} (f : β → α → Except SudokuError β) : β → List α → Except SudokuError β
  | b, [] => .ok b
  | b, x :: xs =>
    match f b x with
    | .error e => .error e
    | .ok b1 => foldE f b1 xs

/-- `for i in range(n): for j in range(i+1, n)` as a pair list. -/
def pairsIdx (n : Nat) : List (Nat × Nat) :=
  (List.range n).bind (fun i =>
    ((List.range n).filter (fun j => decide (i < j))).map (fun j => (i, j)))

/-- Ascending pairs drawn from a list (`for i in sorted(U): for j in
[x for x in sorted(U) if x > i]`). -/
def pairsOf (l : List Nat) : List (Nat × Nat) :=
  l.bind (fun i => (l.filter (fun j => decide (i < j))).map (fun j => (i, j)))

/-- Ascending triples over `range n`. -/
def triplesIdx (n : Nat) : List (Nat × Nat × Nat) :=
  (pairsIdx n).bind (fun ij =>
    ((List.range n).filter (fun z => decide (ij.2 < z))).map (fun z => (ij.1, ij.2, z)))

/-- Ascending triples drawn from a list. -/
def triplesOf (l : List Nat) : List (Nat × Nat × Nat) :=
  (pairsOf l).bind (fun ij =>
    (l.filter (fun z => decide (ij.2 < z))).map (fun z => (ij.1, ij.2, z)))

/-- Ascending quadruples over `range n`. -/
def quadsIdx (n : Nat) : List (Nat × Nat × Nat × Nat) :=
  (triplesIdx n).bind (fun t =>
    ((List.range n).filter (fun z => decide (t.2.2 < z))).map (fun z => (t.1, t.2.1, t.2.2, z)))

/-- Ascending quadruples drawn from a list. -/
def quadsOf (l : List Nat) : List (Nat × Nat × Nat × Nat) :=
  (triplesOf l).bind (fun t =>
    (l.filter (fun z => decide (t.2.2 < z))).map (fun z => (t.1, t.2.1, t.2.2, z)))

/-- Remove every digit of `un` from every unit square whose position is
not in `keepPos` (`for z, s in enumerate(unsolved): if z not in comb:
for c in union: s.remove_candidate(c)`), accumulating the change flag. -/
def removeFromOthers (un : List Nat) (keepPos : List Nat) (unsolved : List Nat) (g : Grid) :
    Grid × Bool :=
  (List.range unsolved.length).foldl (fun acc z =>
    if z ∈ keepPos then acc
    else un.foldl (fun a c =>
      let r := remove_candidate a.1 (unsolved.getD z 0) c
      (r.1, a.2 || r.2)) acc) (g, false)

/-- `Unit.find_naked_pairs` (sudo.py lines 150-168). -/
def find_naked_pairs (g0 : Grid) (k : UnitKind) (u : Nat) : Grid × Bool :=
  let unsolved := unitUnsolved g0 k u
  (pairsIdx unsolved.length).foldl (fun acc ij =>
    if acc.2 then acc
    else
      let un := unionS (candAt acc.1 (unsolved.getD ij.1 0)) (candAt acc.1 (unsolved.getD ij.2 0))
      if un.length = 2 then removeFromOthers un [ij.1, ij.2] unsolved acc.1
      else acc) ((g0 : Grid), false)

/-- `Unit.find_naked_triples` (sudo.py lines 170-189). -/
def find_naked_triples (g0 : Grid) (k : UnitKind) (u : Nat) : Grid × Bool :=
  let unsolved := unitUnsolved g0 k u
  (triplesIdx unsolved.length).foldl (fun acc t =>
    if acc.2 then acc
    else
      let un := unionS (unionS (candAt acc.1 (unsolved.getD t.1 0))
          (candAt acc.1 (unsolved.getD t.2.1 0))) (candAt acc.1 (unsolved.getD t.2.2 0))
      if un.length = 3 then removeFromOthers un [t.1, t.2.1, t.2.2] unsolved acc.1
      else acc) ((g0 : Grid), false)

/-- `Unit.find_naked_quadruples` (sudo.py lines 191-212). -/
def find_naked_quadruples (g0 : Grid) (k : UnitKind) (u : Nat) : Grid × Bool :=
  let unsolved := unitUnsolved g0 k u
  (quadsIdx unsolved.length).foldl (fun acc q =>
    if acc.2 then acc
    else
      let un := unionS (unionS (unionS (candAt acc.1 (unsolved.getD q.1 0))
          (candAt acc.1 (unsolved.getD q.2.1 0))) (candAt acc.1 (unsolved.getD q.2.2.1 0)))
          (candAt acc.1 (unsolved.getD q.2.2.2 0))
      if un.length = 4 then removeFromOthers un [q.1, q.2.1, q.2.2.1, q.2.2.2] unsolved acc.1
      else acc) ((g0 : Grid), false)

/-- The position set of a digit inside a unit
(`positions[i] = {p | i in unsolved[p].candidates}`, built once from the
state at entry to the strategy). -/
def positionsFor (g : Grid) (unsolved : List Nat) (d : Nat) : List Nat :=
  (List.range unsolved.length).filter (fun p => decide (d ∈ candAt g (unsolved.getD p 0)))

/-- `unsolved_numbers = sorted({i | positions[i] nonempty})`. -/
def unsolvedNums (g : Grid) (unsolved : List Nat) : List Nat :=
  digitsL.filter (fun d => decide (positionsFor g unsolved d ≠ []))

/-- `for p in union: affected |= unsolved[p].keep_candidates(ds)`. -/
def keepAtPositions (ps : List Nat) (ds : List Nat) (unsolved : List Nat) (g : Grid) :
    Except SudokuError (Grid × Bool) :=
  foldE (fun acc p =>
    (keep_candidates acc.1 (unsolved.getD p 0) ds).map (fun r => (r.1, acc.2 || r.2)))
    ((g : Grid), false) ps

/-- `Unit.find_hidden_singles` (sudo.py lines 214-236). -/
def find_hidden_singles (g0 : Grid) (k : UnitKind) (u : Nat) : Except SudokuError (Grid × Bool) :=
  let unsolved := unitUnsolved g0 k u
  foldE (fun acc d =>
    if acc.2 then .ok acc
    else
      let ps := positionsFor g0 unsolved d
      if ps.length = 1 then keepAtPositions ps [d] unsolved acc.1
      else .ok acc) ((g0 : Grid), false) (unsolvedNums g0 unsolved)

/-- `Unit.find_hidden_pairs` (sudo.py lines 239-263). -/
def find_hidden_pairs (g0 : Grid) (k : UnitKind) (u : Nat) : Except SudokuError (Grid × Bool) :=
  let unsolved := unitUnsolved g0 k u
  foldE (fun acc ij =>
    if acc.2 then .ok acc
    else
      let un := unionS (positionsFor g0 unsolved ij.1) (positionsFor g0 unsolved ij.2)
      if un.length = 2 then keepAtPositions un [ij.1, ij.2] unsolved acc.1
      else .ok acc) ((g0 : Grid), false) (pairsOf (unsolvedNums g0 unsolved))

/-- `Unit.find_hidden_triples` (sudo.py lines 265-290). -/
def find_hidden_triples (g0 : Grid) (k : UnitKind) (u : Nat) : Except SudokuError (Grid × Bool) :=
  let unsolved := unitUnsolved g0 k u
  foldE (fun acc t =>
    if acc.2 then .ok acc
    else
      let un := unionS (unionS (positionsFor g0 unsolved t.1) (positionsFor g0 unsolved t.2.1))
          (positionsFor g0 unsolved t.2.2)
      if un.length = 3 then keepAtPositions un [t.1, t.2.1, t.2.2] unsolved acc.1
      else .ok acc) ((g0 : Grid), false) (triplesOf (unsolvedNums g0 unsolved))

/-- `Unit.find_hidden_quadruples` (sudo.py lines 292-318). -/
def find_hidden_quadruples (g0 : Grid) (k : UnitKind) (u : Nat) : Except SudokuError (Grid × Bool) :=
  let unsolved := unitUnsolved g0 k u
  foldE (fun acc q =>
    if acc.2 then .ok acc
    else
      let un := unionS (unionS (unionS (positionsFor g0 unsolved q.1)
          (positionsFor g0 unsolved q.2.1)) (positionsFor g0 unsolved q.2.2.1))
          (positionsFor g0 unsolved q.2.2.2)
      if un.length = 4 then keepAtPositions un [q.1, q.2.1, q.2.2.1, q.2.2.2] unsolved acc.1
      else .ok acc) ((g0 : Grid), false) (quadsOf (unsolvedNums g0 unsolved))

/-- `Unit.find_naked_lines` (sudo.py lines 320-373), a no-op except on
boxes.  `candidate_squares` is computed once at entry; the removals read
and mutate the live grid, and effects accumulate over all digits. -/
def find_naked_lines (g0 : Grid) (k : UnitKind) (u : Nat) : Grid × Bool :=
  match k with
  | .box =>
    let cSquares := fun d => (unitUnsolved g0 .box u).foldl
        (fun acc i => if d ∈ candAt g0 i then insertS i acc else acc) []
    digitsL.foldl (fun acc d =>
      let c := cSquares d
      if c.isEmpty then acc
      else
        let candRows := c.foldl (fun a i => insertS (rowOf i) a) []
        let acc1 :=
          if candRows.length = 1 then
            candRows.foldl (fun a r =>
              let res := (unitUnsolved a.1 .row r).foldl (fun a2 s =>
                if s ∈ c then a2
                else
                  let rr := remove_candidate a2.1 s d
                  (rr.1, a2.2 || rr.2)) ((a.1 : Grid), false)
              (res.1, a.2 || res.2)) acc
          else acc
        let candCols := c.foldl (fun a i => insertS (colOf i) a) []
        if candCols.length = 1 then
          candCols.foldl (fun a cc =>
            let res := (unitUnsolved a.1 .column cc).foldl (fun a2 s =>
              if s ∈ c then a2
              else
                let rr := remove_candidate a2.1 s d
                (rr.1, a2.2 || rr.2)) ((a.1 : Grid), false)
            (res.1, a.2 || res.2)) acc1
        else acc1) ((g0 : Grid), false)
  | _ => (g0, false)

/-- `Unit.find_hidden_lines` (sudo.py lines 375-410), a no-op on boxes. -/
def find_hidden_lines (g0 : Grid) (k : UnitKind) (u : Nat) : Grid × Bool :=
  match k with
  | .box => (g0, false)
  | _ =>
    let cSquares := fun d => (unitUnsolved g0 k u).foldl
        (fun acc i => if d ∈ candAt g0 i then insertS i acc else acc) []
    digitsL.foldl (fun acc d =>
      let c := cSquares d
      if c.isEmpty then acc
      else
        let candBoxes := c.foldl (fun a i => insertS (boxOf i) a) []
        if candBoxes.length = 1 then
          candBoxes.foldl (fun a b =>
            let res := (unitUnsolved a.1 .box b).foldl (fun a2 s =>
              if s ∈ c then a2
              else
                let rr := remove_candidate a2.1 s d
                (rr.1, a2.2 || rr.2)) ((a.1 : Grid), false)
            (res.1, a.2 || res.2)) acc
        else acc) ((g0 : Grid), false)

/-- Position set of digit `d` in line `j` of the given orientation,
computed over the FULL square list of the line
(`positions[j] = {k | d in rows[j].squares[k].candidates}`). -/
def xwPos (g : Grid) (lines : Nat → List Nat) (d : Nat) (j : Nat) : List Nat :=
  (List.range 9).filter (fun p => decide (d ∈ candAt g ((lines j).getD p 0)))

/-- `Grid.__find_x_wing` (sudo.py lines 451-477) for one digit and one
orientation: scan ascending line pairs; when the union of the two
position sets has exactly two elements, remove the digit from the two
cross-lines outside the two scanned lines; return on first effective
pair. -/
def find_x_wing (g0 : Grid) (d : Nat) (lines cross : Nat → List Nat) : Grid × Bool :=
  let unsolvedLines := (List.range 9).filter (fun j => decide (xwPos g0 lines d j ≠ []))
  (pairsOf unsolvedLines).foldl (fun acc jk =>
    if acc.2 then acc
    else
      let un := unionS (xwPos g0 lines d jk.1) (xwPos g0 lines d jk.2)
      if un.length = 2 then
        un.foldl (fun a c =>
          (List.range 9).foldl (fun a2 z =>
            if z = jk.1 ∨ z = jk.2 then a2
            else
              let r := remove_candidate a2.1 ((cross c).getD z 0) d
              (r.1, a2.2 || r.2)) a) ((acc.1 : Grid), false)
      else acc) ((g0 : Grid), false)

/-- `Grid.find_x_wings` (sudo.py lines 485-497).  The digit set is the
union of the candidate sets of all unsolved squares; with no unsolved
square the Python call `set.union(*[])` raises a `TypeError`.  Each
digit is tried in the row orientation first, then the column
orientation, returning on the first effective find. -/
def find_x_wings (g : Grid) : Except SudokuError (Grid × Bool) :=
  if g.unsolvedSquares.isEmpty then .error SudokuError.emptySetUnion
  else
    let nums := g.unsolvedSquares.foldl (fun acc i => unionS acc (candAt g i)) []
    .ok (nums.foldl (fun acc d =>
      if acc.2 then acc
      else
        let r1 := find_x_wing acc.1 d rowIdxs colIdxs
        if r1.2 then (r1.1, true)
        else find_x_wing r1.1 d colIdxs rowIdxs) ((g : Grid), false))

/-- `set([x.value for x in unit.squares if x.value])` in ascending
iteration order. -/
def solvedValues (g : Grid) (idxs : List Nat) : List Nat :=
  idxs.foldl (fun acc i =>
    match valAt g i with
    | some v => if v = 0 then acc else insertS v acc
    | none => acc) []

/-- `for v in vs: affected |= square_i.remove_candidate(v)`. -/
def removeList (acc : Grid × Bool) (i : Nat) (vs : List Nat) : Grid × Bool :=
  vs.foldl (fun a v =>
    let r := remove_candidate a.1 i v
    (r.1, a.2 || r.2)) acc

/-- Simple pruning (sudo.py lines 583-591): for every unsolved square
remove every value solved elsewhere in its row, column and box. -/
def pruneStage (g0 : Grid) : Grid × Bool :=
  g0.unsolvedSquares.foldl (fun acc i =>
    let a1 := removeList acc i (solvedValues acc.1 (rowIdxs (rowOf i)))
    let a2 := removeList a1 i (solvedValues a1.1 (colIdxs (colOf i)))
    removeList a2 i (solvedValues a2.1 (boxIdxs (boxOf i)))) ((g0 : Grid), false)

/-- A strategy pass over all 27 units, or-accumulating the change flag
(`for u in self.rows + self.columns + self.boxes: affected |= ...`). -/
def stageFold (f : Grid → UnitKind → Nat → Grid × Bool) (g : Grid) (a : Bool) : Grid × Bool :=
  allUnits.foldl (fun acc ku =>
    let r := f acc.1 ku.1 ku.2
    (r.1, acc.2 || r.2)) ((g : Grid), a)

/-- Fallible variant of `stageFold`. -/
def stageFoldE (f : Grid → UnitKind → Nat → Except SudokuError (Grid × Bool))
    (g : Grid) (a : Bool) : Except SudokuError (Grid × Bool) :=
  foldE (fun acc ku =>
    (f acc.1 ku.1 ku.2).map (fun r => (r.1, acc.2 || r.2))) ((g : Grid), a) allUnits

/-- The hidden-singles stage of `update_notation` (lines 595-599). -/
def hiddenSinglesStage (g : Grid) (a : Bool) : Except SudokuError (Grid × Bool) :=
  stageFoldE find_hidden_singles g a

/-- One pass of the intersection-removal loop (lines 606-613): pointing
pairs/triples over all boxes, then box/line reduction over all rows and
columns. -/
def interPass (g : Grid) : Grid × Bool :=
  let a1 := (List.range 9).foldl (fun acc u =>
    let r := find_naked_lines acc.1 UnitKind.box u
    (r.1, acc.2 || r.2)) ((g : Grid), false)
  (((List.range 9).map (fun u => (UnitKind.row, u))) ++
   ((List.range 9).map (fun u => (UnitKind.column, u)))).foldl (fun acc ku =>
    let r := find_hidden_lines acc.1 ku.1 ku.2
    (r.1, acc.2 || r.2)) a1

/-- The `while True` intersection-removal loop (lines 606-618), run to a
local fixpoint.  The Python loop is unbounded; every effective pass
appends at least one move and removes at least one candidate, so
`candTotal g + 1` passes always suffice to reach the fixpoint, and the
fuelled recursion is extensionally the Python loop. -/
def interLoop : Nat → Grid → Bool → Grid × Bool
  | 0, g, a => (g, a)
  | Nat.succ fuel, g, a =>
    let p := interPass g
    if p.2 then interLoop fuel p.1 true else (p.1, a)

/-- The pairs-and-triples block of `update_notation` (lines 624-639):
naked pairs, hidden pairs, naked triples, hidden triples over all units,
with no early exit inside the block. -/
def pairsTriplesBlock (g : Grid) : Except SudokuError (Grid × Bool) :=
  let s1 := stageFold find_naked_pairs g false
  (stageFoldE find_hidden_pairs s1.1 s1.2).bind (fun s2 =>
    let s3 := stageFold find_naked_triples s2.1 s2.2
    stageFoldE find_hidden_triples s3.1 s3.2)

/-- The quadruples block of `update_notation` (lines 644-650). -/
def quadsBlock (g : Grid) : Except SudokuError (Grid × Bool) :=
  let s5 := stageFold find_naked_quadruples g false
  stageFoldE find_hidden_quadruples s5.1 s5.2

/-- `Puzzle.update_notation` (sudo.py lines 580-663): simple pruning,
then hidden singles over all units; return if anything changed.  Then
the intersection-removal loop to fixpoint; return if it changed.  Then
the pairs/triples block; return if it changed.  Then the quadruples
block; return if it changed.  Finally X-Wings. -/
def updateMarks (g : Grid) : Except SudokuError Grid :=
  let p := pruneStage g
  (hiddenSinglesStage p.1 p.2).bind (fun hs =>
    if hs.2 then .ok hs.1
    else
      let il := interLoop (candTotal hs.1 + 1) hs.1 false
      if il.2 then .ok il.1
      else
        (pairsTriplesBlock il.1).bind (fun pt =>
          if pt.2 then .ok pt.1
          else
            (quadsBlock pt.1).bind (fun qb =>
              if qb.2 then .ok qb.1
              else (find_x_wings qb.1).map (fun xw => xw.1))))

/-- The solve-singles pass of `Puzzle.solve` (lines 689-694): iterate
the board's unsolved list; every square with a single candidate is
popped (`s.candidates.pop()` empties the singleton set) and assigned.
Returns the grid and `solved_this_round`. -/
def singlesStep (acc : Grid × List Nat) (i : Nat) : Except SudokuError (Grid × List Nat) :=
  let s := getSq acc.1 i
  if s.candidates.length = 1 then
    let v := s.candidates.headD 0
    let g1 := setSq acc.1 i { s with candidates := s.candidates.erase v }
    let r := set_value g1 i v
    r.2.elim (.ok (r.1, acc.2 ++ [i])) (fun e => .error e)
  else .ok acc

def singlesPass (g0 : Grid) : Except SudokuError (Grid × List Nat) :=
  foldE singlesStep ((g0 : Grid), ([] : List Nat)) g0.unsolvedSquares

/-- `for s in solved_this_round: self.unsolved_squares.remove(s)`
(lines 696-697). -/
def removeSolved (l : List Nat) (solvedRound : List Nat) : Option (List Nat) :=
  solvedRound.foldl (fun acc i =>
    match acc with
    | none => none
    | some l1 => listRemove l1 i) (some l)

/-- Case analysis on an `Except` value as a plain function. -/
def exElim {ε α β : Type} (x : Except ε α) (f : ε → β) (h : α → β) : β :=
  match x with
  | .error e => f e
  | .ok a => h a

/-- Terminal classification of a run of `Puzzle.solve`: the three
terminal states of the spec, plus an escaped exception and fuel
exhaustion of the model (the Python loop is unbounded). -/
inductive Outcome where
  | solved | stuck | invalid | failed (e : SudokuError) | fuelOut
deriving DecidableEq, Repr

/-- The `while not self.is_solved()` loop of `Puzzle.solve` (lines
676-721): run `update_notation`, solve singles, drop the newly solved
squares from the board's unsolved list; halt Stuck when the cycle
appended no move, halt Invalid when the grid became invalid, otherwise
repeat. -/
def solveLoop : Nat → Grid → Nat → Grid × Outcome
  | 0, g, _ => (g, Outcome.fuelOut)
  | Nat.succ fuel, g, currentMoves =>
    if is_solved g then (g, Outcome.solved)
    else
      exElim (updateMarks g) (fun e => (g, Outcome.failed e)) (fun g1 =>
        exElim (singlesPass g1) (fun e => (g1, Outcome.failed e)) (fun gs =>
          (removeSolved gs.1.unsolvedSquares gs.2).elim
            (gs.1, Outcome.failed SudokuError.removeMissing) (fun l =>
            let g3 := { gs.1 with unsolvedSquares := l }
            if mcount g3 = currentMoves then (g3, Outcome.stuck)
            else if is_valid g3 = false then (g3, Outcome.invalid)
            else solveLoop fuel g3 (mcount g3))))

/-- `Puzzle.solve` (lines 665-723): an invalid puzzle halts immediately
in the Invalid state; otherwise the loop runs from the current move
count. -/
def solvePuzzle (g : Grid) (fuel : Nat) : Grid × Outcome :=
  if is_valid g = false then (g, Outcome.invalid)
  else solveLoop fuel g (mcount g)

/-! ### Basic list lemmas for the set model -/

theorem getD_oob {α : Type} [Inhabited α] :
    ∀ (l : List α) (i : Nat), l.length ≤ i → l.getD i default = default
  | [], i, _ => by cases i <;> rfl
  | _ :: xs, i + 1, h => getD_oob xs i (by simpa using h)
  | _ :: _, 0, h => by simp at h

theorem getD_set_self {α : Type} [Inhabited α] :
    ∀ (l : List α) (i : Nat) (a : α), i < l.length → (l.set i a).getD i default = a
  | [], i, _, h => by simp at h
  | _ :: _, 0, _, _ => rfl
  | _ :: xs, i + 1, a, h => getD_set_self xs i a (by simpa using h)

theorem getD_set_ne {α : Type} [Inhabited α] :
    ∀ (l : List α) (i j : Nat) (a : α), j ≠ i → (l.set i a).getD j default = l.getD j default
  | [], _, _, _, _ => by simp
  | _ :: _, 0, 0, _, h => absurd rfl h
  | _ :: _, 0, _ + 1, _, _ => rfl
  | _ :: _, _ + 1, 0, _, _ => rfl
  | _ :: xs, i + 1, j + 1, a, h => getD_set_ne xs i j a (by omega)

theorem sum_map_set {α : Type} [Inhabited α] (f : α → Nat) :
    ∀ (l : List α) (i : Nat) (a : α), i < l.length →
      ((l.set i a).map f).sum + f (l.getD i default) = (l.map f).sum + f a
  | [], i, _, h => by simp at h
  | x :: xs, 0, a, _ => by simp; omega
  | x :: xs, i + 1, a, h => by
    have hset : (x :: xs).set (i + 1) a = x :: xs.set i a := rfl
    rw [hset]
    simp only [List.map_cons, List.sum_cons, List.getD_cons_succ]
    have := sum_map_set f xs i a (by simpa using h)
    omega

theorem mem_interL {a b : List Nat} {x : Nat} : x ∈ interL a b ↔ x ∈ a ∧ x ∈ b := by
  simp [interL]

theorem interL_subset (a b : List Nat) : interL a b ⊆ a :=
  fun _ hx => (List.mem_filter.mp hx).1

theorem subB_iff {a b : List Nat} : subB a b = true ↔ ∀ x ∈ a, x ∈ b := by
  simp [subB]

theorem interL_of_subB {a b : List Nat} (h : subB a b = true) : interL a b = a := by
  rw [interL, List.filter_eq_self]
  intro x hx
  simpa using subB_iff.mp h x hx

theorem interL_length_lt {a b : List Nat} (h : ¬ subB a b = true) :
    (interL a b).length < a.length := by
  have hex : ∃ x ∈ a, x ∉ b := by
    by_contra hc
    push_neg at hc
    exact h (subB_iff.mpr hc)
  rcases hex with ⟨x, hxa, hxb⟩
  have hsub : (interL a b).Sublist a := List.filter_sublist a
  rcases Nat.lt_or_ge (interL a b).length a.length with hlt | hge
  · exact hlt
  · exfalso
    have heq : interL a b = a := hsub.eq_of_length_le hge
    exact hxb (mem_interL.mp (heq ▸ hxa)).2

theorem interL_interL (a b : List Nat) : interL (interL a b) b = interL a b := by
  rw [interL, List.filter_eq_self]
  intro x hx
  simpa using (mem_interL.mp hx).2

theorem diffL_interL (a b : List Nat) : diffL (interL a b) b = [] := by
  rw [List.eq_nil_iff_forall_not_mem]
  intro x hx
  rcases by simpa [diffL] using hx with ⟨hxi, hxb⟩
  exact hxb (mem_interL.mp hxi).2

theorem mem_insertS {x y : Nat} : ∀ {l : List Nat}, y ∈ insertS x l ↔ y = x ∨ y ∈ l
  | [] => by simp [insertS]
  | z :: zs => by
    simp only [insertS]
    split_ifs with h1 h2
    · simp only [List.mem_cons]
      try tauto
    · subst h2
      simp only [List.mem_cons]
      try tauto
    · simp only [List.mem_cons, @mem_insertS x y zs]
      try tauto

theorem mem_unionS {x : Nat} {b : List Nat} :
    ∀ {a : List Nat}, x ∈ unionS a b ↔ x ∈ a ∨ x ∈ b := by
  induction b with
  | nil => simp [unionS]
  | cons z zs ih =>
    intro a
    show x ∈ unionS (insertS z a) zs ↔ _
    rw [ih, mem_insertS]
    simp
    tauto

/-! ### The simulation relation preserved by all candidate mutations -/

/-- Everything a candidate-removing operation preserves: the combined
measure `candTotal + mcount` never increases, the move stack only grows,
values, the unsolved bookkeeping lists and the square count are
untouched, and candidate sets only shrink. -/
structure SRel (g g1 : Grid) : Prop where
  meas : candTotal g1 + mcount g1 ≤ candTotal g + mcount g
  mono : mcount g ≤ mcount g1
  len : g1.squares.length = g.squares.length
  vals : ∀ i, valAt g1 i = valAt g i
  uns : g1.unsolvedSquares = g.unsolvedSquares
  rowU : g1.rowUnsolved = g.rowUnsolved
  colU : g1.colUnsolved = g.colUnsolved
  boxU : g1.boxUnsolved = g.boxUnsolved
  cands : ∀ i, candAt g1 i ⊆ candAt g i

theorem SRel.refl (g : Grid) : SRel g g :=
  ⟨Nat.le_refl _, Nat.le_refl _, rfl, fun _ => rfl, rfl, rfl, rfl, rfl, fun _ => List.Subset.refl _⟩

theorem SRel.trans {g1 g2 g3 : Grid} (h1 : SRel g1 g2) (h2 : SRel g2 g3) : SRel g1 g3 :=
  ⟨Nat.le_trans h2.meas h1.meas, Nat.le_trans h1.mono h2.mono, h2.len.trans h1.len,
   fun i => (h2.vals i).trans (h1.vals i), h2.uns.trans h1.uns, h2.rowU.trans h1.rowU,
   h2.colU.trans h1.colU, h2.boxU.trans h1.boxU,
   fun i => List.Subset.trans (h2.cands i) (h1.cands i)⟩

theorem getSq_oob {g : Grid} {i : Nat} (h : g.squares.length ≤ i) : getSq g i = default :=
  getD_oob _ _ h

theorem getSq_setSq_self {g : Grid} {i : Nat} {s : Square} (h : i < g.squares.length) :
    getSq (setSq g i s) i = s :=
  getD_set_self _ _ _ h

theorem getSq_setSq_ne {g : Grid} {i j : Nat} {s : Square} (h : j ≠ i) :
    getSq (setSq g i s) j = getSq g j :=
  getD_set_ne _ _ _ _ h

theorem default_square : (default : Square) = ⟨none, []⟩ := rfl

/-! ### Characterization of the three primitive mutations -/

theorem candTotal_setSq {g : Grid} {i : Nat} (s : Square) (h : i < g.squares.length) :
    candTotal (setSq g i s) + (candAt g i).length = candTotal g + s.candidates.length := by
  have hsum := sum_map_set (fun s => s.candidates.length) g.squares i s h
  simpa [candTotal, setSq, candAt, getSq] using hsum

/-- The grid produced by a firing `remove_candidate g i v`. -/
def rcGrid (g : Grid) (i v : Nat) : Grid :=
  Grid.mk (g.squares.set i ⟨(getSq g i).value, (candAt g i).erase v⟩)
    g.unsolvedSquares g.rowUnsolved g.colUnsolved g.boxUnsolved
    (g.moveStack ++ [Move.removeC i [v]])

theorem remove_candidate_cases (g : Grid) (i v : Nat) :
    (v ∉ candAt g i ∧ remove_candidate g i v = (g, false)) ∨
    (v ∈ candAt g i ∧ i < g.squares.length ∧
      remove_candidate g i v = (rcGrid g i v, true)) := by
  by_cases h : v ∈ candAt g i
  · right
    have hlen : i < g.squares.length := by
      by_contra hc
      push_neg at hc
      rw [candAt, getSq_oob hc, default_square] at h
      simp at h
    refine ⟨h, hlen, ?_⟩
    rw [candAt] at h
    simp only [remove_candidate, if_pos h]
    rfl
  · left
    refine ⟨h, ?_⟩
    rw [candAt] at h
    simp only [remove_candidate, if_neg h]

theorem getSq_rcGrid_self {g : Grid} {i v : Nat} (h : i < g.squares.length) :
    getSq (rcGrid g i v) i = ⟨(getSq g i).value, (candAt g i).erase v⟩ :=
  getD_set_self _ _ _ h

theorem getSq_rcGrid_ne {g : Grid} {i v j : Nat} (h : j ≠ i) :
    getSq (rcGrid g i v) j = getSq g j :=
  getD_set_ne _ _ _ _ h

theorem remove_candidate_srel (g : Grid) (i v : Nat) : SRel g (remove_candidate g i v).1 := by
  rcases remove_candidate_cases g i v with ⟨_, heq⟩ | ⟨h, hlen, heq⟩
  · rw [heq]
    exact SRel.refl g
  · rw [heq]
    have hct := candTotal_setSq (g := g) (i := i) ⟨(getSq g i).value, (candAt g i).erase v⟩ hlen
    rw [List.length_erase_of_mem h] at hct
    have hpos : 0 < (candAt g i).length := List.length_pos.mpr (List.ne_nil_of_mem h)
    have hmk : candTotal (rcGrid g i v) = candTotal (setSq g i ⟨(getSq g i).value, (candAt g i).erase v⟩) := rfl
    refine ⟨?_, ?_, ?_, ?_, rfl, rfl, rfl, rfl, ?_⟩
    · show candTotal (rcGrid g i v) + mcount (rcGrid g i v) ≤ _
      have hmc : mcount (rcGrid g i v) = mcount g + 1 := by
        simp [rcGrid, mcount]
      rw [hmk, hmc]
      omega
    · show mcount g ≤ mcount (rcGrid g i v)
      simp [rcGrid, mcount]
    · show (g.squares.set i _).length = g.squares.length
      simp
    · intro j
      by_cases hj : j = i
      · subst hj
        show (getSq (rcGrid g j v) j).value = _
        rw [getSq_rcGrid_self hlen]
        rfl
      · show (getSq (rcGrid g i v) j).value = _
        rw [getSq_rcGrid_ne hj]
        rfl
    · intro j
      by_cases hj : j = i
      · subst hj
        show (getSq (rcGrid g j v) j).candidates ⊆ _
        rw [getSq_rcGrid_self hlen]
        exact List.erase_subset _ _
      · show (getSq (rcGrid g i v) j).candidates ⊆ _
        rw [getSq_rcGrid_ne hj]
        exact fun x hx => hx

theorem remove_candidate_false {g : Grid} {i v : Nat}
    (h : (remove_candidate g i v).2 = false) : (remove_candidate g i v).1 = g := by
  rcases remove_candidate_cases g i v with ⟨_, heq⟩ | ⟨_, _, heq⟩
  · rw [heq]
  · rw [heq] at h
    simp at h

theorem remove_candidate_true_mcount {g : Grid} {i v : Nat}
    (h : (remove_candidate g i v).2 = true) :
    mcount (remove_candidate g i v).1 = mcount g + 1 := by
  rcases remove_candidate_cases g i v with ⟨_, heq⟩ | ⟨_, _, heq⟩
  · rw [heq] at h
    simp at h
  · rw [heq]
    simp [rcGrid, mcount]

theorem remove_candidate_getSq_ne {g : Grid} {i v j : Nat} (h : j ≠ i) :
    getSq (remove_candidate g i v).1 j = getSq g j := by
  rcases remove_candidate_cases g i v with ⟨_, heq⟩ | ⟨_, _, heq⟩
  · rw [heq]
  · rw [heq]
    exact getSq_rcGrid_ne h

theorem remove_candidate_true_candAt {g : Grid} {i v : Nat}
    (h : (remove_candidate g i v).2 = true) :
    v ∈ candAt g i ∧
      candAt (remove_candidate g i v).1 i = (candAt g i).erase v ∧
      valAt (remove_candidate g i v).1 i = valAt g i := by
  rcases remove_candidate_cases g i v with ⟨_, heq⟩ | ⟨hv, hlen, heq⟩
  · rw [heq] at h
    simp at h
  · rw [heq]
    refine ⟨hv, ?_, ?_⟩
    · show (getSq (rcGrid g i v) i).candidates = _
      rw [getSq_rcGrid_self hlen]
    · show (getSq (rcGrid g i v) i).value = _
      rw [getSq_rcGrid_self hlen]
      rfl

/-! ### Characterization of `keep_candidates` -/

theorem keep_candidates_err {g : Grid} {i : Nat} {v : List Nat}
    (h : interL (candAt g i) v = []) :
    keep_candidates g i v = .error SudokuError.invalidCandidates := by
  simp only [keep_candidates, candAt] at h ⊢
  rw [h]
  simp

/-- The grid produced by a firing `keep_candidates g i v`. -/
def kcGrid (g : Grid) (i : Nat) (v : List Nat) : Grid :=
  Grid.mk (g.squares.set i ⟨(getSq g i).value, interL (candAt g i) v⟩)
    g.unsolvedSquares g.rowUnsolved g.colUnsolved g.boxUnsolved
    (g.moveStack ++ [Move.removeC i (diffL (interL (candAt g i) v) v)])

theorem keep_candidates_cases (g : Grid) (i : Nat) (v : List Nat)
    (hd : v.all (fun x => decide (x ∈ digitsL)) = true)
    (hi : interL (candAt g i) v ≠ []) :
    (subB (candAt g i) v = true ∧ keep_candidates g i v = .ok (g, false)) ∨
    (subB (candAt g i) v = false ∧ i < g.squares.length ∧
      keep_candidates g i v = .ok (kcGrid g i v, true)) := by
  have hcond : (v.all (fun x => decide (x ∈ digitsL)) &&
      !(interL (getSq g i).candidates v).isEmpty) = true := by
    rw [hd]
    rw [candAt] at hi
    simp [List.isEmpty_iff, hi]
  by_cases hsub : subB (candAt g i) v = true
  · left
    refine ⟨hsub, ?_⟩
    rw [candAt] at hsub
    simp only [keep_candidates, if_pos hcond, if_pos hsub]
  · right
    have hlen : i < g.squares.length := by
      by_contra hc
      push_neg at hc
      rw [candAt, getSq_oob hc, default_square] at hsub
      simp [subB] at hsub
    refine ⟨by simpa using hsub, hlen, ?_⟩
    rw [candAt] at hsub
    simp only [keep_candidates, if_pos hcond, if_neg hsub]
    rfl

theorem getSq_kcGrid_self {g : Grid} {i : Nat} {v : List Nat} (h : i < g.squares.length) :
    getSq (kcGrid g i v) i = ⟨(getSq g i).value, interL (candAt g i) v⟩ :=
  getD_set_self _ _ _ h

theorem getSq_kcGrid_ne {g : Grid} {i j : Nat} {v : List Nat} (h : j ≠ i) :
    getSq (kcGrid g i v) j = getSq g j :=
  getD_set_ne _ _ _ _ h

theorem keep_candidates_srel {g g1 : Grid} {i : Nat} {v : List Nat} {b : Bool}
    (h : keep_candidates g i v = .ok (g1, b)) : SRel g g1 := by
  by_cases hd : v.all (fun x => decide (x ∈ digitsL)) = true
  · by_cases hi : interL (candAt g i) v = []
    · rw [keep_candidates_err hi] at h
      cases h
    · rcases keep_candidates_cases g i v hd hi with ⟨_, heq⟩ | ⟨hsub, hlen, heq⟩
      · rw [heq] at h
        cases h
        exact SRel.refl g
      · rw [heq] at h
        cases h
        have hct2 : candTotal (setSq g i ⟨(getSq g i).value, interL (candAt g i) v⟩) +
            (candAt g i).length = candTotal g + (interL (candAt g i) v).length :=
          candTotal_setSq (g := g) (i := i) ⟨(getSq g i).value, interL (candAt g i) v⟩ hlen
        have hlt : (interL (candAt g i) v).length < (candAt g i).length :=
          interL_length_lt (by simp [hsub])
        refine ⟨?_, ?_, by simp [kcGrid], ?_, rfl, rfl, rfl, rfl, ?_⟩
        · have hmk : candTotal (kcGrid g i v) =
              candTotal (setSq g i ⟨(getSq g i).value, interL (candAt g i) v⟩) := rfl
          have hmc : mcount (kcGrid g i v) = mcount g + 1 := by
            simp [kcGrid, mcount]
          rw [hmk, hmc]
          omega
        · show mcount g ≤ mcount (kcGrid g i v)
          simp [kcGrid, mcount]
        · intro j
          by_cases hj : j = i
          · subst hj
            show (getSq (kcGrid g j v) j).value = _
            rw [getSq_kcGrid_self hlen]
            rfl
          · show (getSq (kcGrid g i v) j).value = _
            rw [getSq_kcGrid_ne hj]
            rfl
        · intro j
          by_cases hj : j = i
          · subst hj
            show (getSq (kcGrid g j v) j).candidates ⊆ _
            rw [getSq_kcGrid_self hlen]
            exact interL_subset _ _
          · show (getSq (kcGrid g i v) j).candidates ⊆ _
            rw [getSq_kcGrid_ne hj]
            exact fun x hx => hx
  · exfalso
    have : keep_candidates g i v = .error SudokuError.invalidCandidates := by
      simp only [keep_candidates]
      have hb : (v.all (fun x => decide (x ∈ digitsL)) &&
          !(interL (getSq g i).candidates v).isEmpty) = false := by
        rw [Bool.and_eq_false_iff]
        left
        simpa using hd
      rw [hb]
      simp
    rw [this] at h
    cases h

theorem keep_candidates_false {g g1 : Grid} {i : Nat} {v : List Nat}
    (h : keep_candidates g i v = .ok (g1, false)) : g1 = g := by
  by_cases hd : v.all (fun x => decide (x ∈ digitsL)) = true
  · by_cases hi : interL (candAt g i) v = []
    · rw [keep_candidates_err hi] at h
      cases h
    · rcases keep_candidates_cases g i v hd hi with ⟨_, heq⟩ | ⟨_, _, heq⟩
      · rw [heq] at h
        cases h
        rfl
      · rw [heq] at h
        cases h
  · exfalso
    simp only [keep_candidates] at h
    have hb : (v.all (fun x => decide (x ∈ digitsL)) &&
        !(interL (getSq g i).candidates v).isEmpty) = false := by
      rw [Bool.and_eq_false_iff]
      left
      simpa using hd
    rw [hb] at h
    simp at h

theorem keep_candidates_true_mcount {g g1 : Grid} {i : Nat} {v : List Nat}
    (h : keep_candidates g i v = .ok (g1, true)) : mcount g1 = mcount g + 1 := by
  by_cases hd : v.all (fun x => decide (x ∈ digitsL)) = true
  · by_cases hi : interL (candAt g i) v = []
    · rw [keep_candidates_err hi] at h
      cases h
    · rcases keep_candidates_cases g i v hd hi with ⟨_, heq⟩ | ⟨_, _, heq⟩
      · rw [heq] at h
        cases h
      · rw [heq] at h
        cases h
        simp [kcGrid, mcount]
  · exfalso
    simp only [keep_candidates] at h
    have hb : (v.all (fun x => decide (x ∈ digitsL)) &&
        !(interL (getSq g i).candidates v).isEmpty) = false := by
      rw [Bool.and_eq_false_iff]
      left
      simpa using hd
    rw [hb] at h
    simp at h

theorem keep_candidates_ok {g : Grid} {i : Nat} {v : List Nat}
    (hd : ∀ x ∈ v, x ∈ digitsL) (hi : interL (candAt g i) v ≠ []) :
    ∃ g1 b, keep_candidates g i v = .ok (g1, b) := by
  have hall : v.all (fun x => decide (x ∈ digitsL)) = true := by
    simp only [List.all_eq_true]
    intro x hx
    simpa using hd x hx
  rcases keep_candidates_cases g i v hall hi with ⟨_, heq⟩ | ⟨_, _, heq⟩
  · exact ⟨g, false, heq⟩
  · exact ⟨kcGrid g i v, true, heq⟩

theorem keep_candidates_candAt {g g1 : Grid} {i : Nat} {v : List Nat} {b : Bool}
    (h : keep_candidates g i v = .ok (g1, b)) :
    candAt g1 i = interL (candAt g i) v := by
  by_cases hd : v.all (fun x => decide (x ∈ digitsL)) = true
  · by_cases hi : interL (candAt g i) v = []
    · rw [keep_candidates_err hi] at h
      cases h
    · rcases keep_candidates_cases g i v hd hi with ⟨hsub, heq⟩ | ⟨_, hlen, heq⟩
      · rw [heq] at h
        cases h
        rw [interL_of_subB hsub]
      · rw [heq] at h
        cases h
        show (getSq (kcGrid g i v) i).candidates = _
        rw [getSq_kcGrid_self hlen]
  · exfalso
    simp only [keep_candidates] at h
    have hb : (v.all (fun x => decide (x ∈ digitsL)) &&
        !(interL (getSq g i).candidates v).isEmpty) = false := by
      rw [Bool.and_eq_false_iff]
      left
      simpa using hd
    rw [hb] at h
    simp at h

theorem keep_candidates_getSq_ne {g g1 : Grid} {i j : Nat} {v : List Nat} {b : Bool}
    (h : keep_candidates g i v = .ok (g1, b)) (hj : j ≠ i) :
    getSq g1 j = getSq g j := by
  by_cases hd : v.all (fun x => decide (x ∈ digitsL)) = true
  · by_cases hi : interL (candAt g i) v = []
    · rw [keep_candidates_err hi] at h
      cases h
    · rcases keep_candidates_cases g i v hd hi with ⟨_, heq⟩ | ⟨_, _, heq⟩
      · rw [heq] at h
        cases h
        rfl
      · rw [heq] at h
        cases h
        exact getSq_kcGrid_ne hj
  · exfalso
    simp only [keep_candidates] at h
    have hb : (v.all (fun x => decide (x ∈ digitsL)) &&
        !(interL (getSq g i).candidates v).isEmpty) = false := by
      rw [Bool.and_eq_false_iff]
      left
      simpa using hd
    rw [hb] at h
    simp at h

theorem keep_candidates_true_moves {g g1 : Grid} {i : Nat} {v : List Nat}
    (h : keep_candidates g i v = .ok (g1, true)) :
    g1.moveStack = g.moveStack ++ [Move.removeC i (diffL (interL (candAt g i) v) v)] := by
  by_cases hd : v.all (fun x => decide (x ∈ digitsL)) = true
  · by_cases hi : interL (candAt g i) v = []
    · rw [keep_candidates_err hi] at h
      cases h
    · rcases keep_candidates_cases g i v hd hi with ⟨_, heq⟩ | ⟨_, _, heq⟩
      · rw [heq] at h
        cases h
      · rw [heq] at h
        cases h
        rfl
  · exfalso
    simp only [keep_candidates] at h
    have hb : (v.all (fun x => decide (x ∈ digitsL)) &&
        !(interL (getSq g i).candidates v).isEmpty) = false := by
      rw [Bool.and_eq_false_iff]
      left
      simpa using hd
    rw [hb] at h
    simp at h

/-! ### Characterization of the `value` setter -/

theorem set_value_not_digit {g : Grid} {i v : Nat} (h : v ∉ digitsL) :
    set_value g i v = (g, some SudokuError.invalidValue) := by
  simp only [set_value, if_neg h]

/-- The partially mutated grid left behind when the `value` setter fails
at `row.unsolved_squares.remove`: value overwritten, move logged,
nothing removed from any list. -/
def svGridPart (g : Grid) (i v : Nat) : Grid :=
  Grid.mk (g.squares.set i ⟨some v, candAt g i⟩) g.unsolvedSquares
    g.rowUnsolved g.colUnsolved g.boxUnsolved (g.moveStack ++ [Move.assign i v])

/-- The grid produced by a fully successful `value` setter. -/
def svGridOk (g : Grid) (i v : Nat) : Grid :=
  Grid.mk (g.squares.set i ⟨some v, candAt g i⟩) g.unsolvedSquares
    (g.rowUnsolved.set (rowOf i) ((g.rowUnsolved.getD (rowOf i) []).erase i))
    (g.colUnsolved.set (colOf i) ((g.colUnsolved.getD (colOf i) []).erase i))
    (g.boxUnsolved.set (boxOf i) ((g.boxUnsolved.getD (boxOf i) []).erase i))
    (g.moveStack ++ [Move.assign i v])

theorem set_value_missing_row {g : Grid} {i v : Nat} (hv : v ∈ digitsL)
    (hr : i ∉ g.rowUnsolved.getD (rowOf i) []) :
    set_value g i v = (svGridPart g i v, some SudokuError.removeMissing) := by
  simp only [set_value, if_pos hv, listRemove, setSq, if_neg hr]
  rfl

theorem set_value_success {g : Grid} {i v : Nat} (hv : v ∈ digitsL)
    (hr : i ∈ g.rowUnsolved.getD (rowOf i) [])
    (hc : i ∈ g.colUnsolved.getD (colOf i) [])
    (hb : i ∈ g.boxUnsolved.getD (boxOf i) []) :
    set_value g i v = (svGridOk g i v, none) := by
  simp only [set_value, if_pos hv, listRemove, setSq, if_pos hr, if_pos hc, if_pos hb]
  rfl

theorem candTotal_svGridOk {g : Grid} {i v : Nat} (h : i < g.squares.length) :
    candTotal (svGridOk g i v) = candTotal g := by
  have hct : candTotal (setSq g i ⟨some v, candAt g i⟩) + (candAt g i).length =
      candTotal g + (candAt g i).length :=
    candTotal_setSq (g := g) (i := i) ⟨some v, candAt g i⟩ h
  have hmk : candTotal (svGridOk g i v) = candTotal (setSq g i ⟨some v, candAt g i⟩) := rfl
  omega

theorem getSq_svGridOk_self {g : Grid} {i v : Nat} (h : i < g.squares.length) :
    getSq (svGridOk g i v) i = ⟨some v, candAt g i⟩ :=
  getD_set_self _ _ _ h

theorem getSq_svGridOk_ne {g : Grid} {i v j : Nat} (h : j ≠ i) :
    getSq (svGridOk g i v) j = getSq g j :=
  getD_set_ne _ _ _ _ h

/-! ### Concrete grids used by counterexamples and witnesses -/

/-- The all-blank puzzle (81 zeros). -/
def zeros81 : List Nat := (List.range 81).map (fun _ => 0)

def gZeros : Grid := mkGrid zeros81

/-- Convenience extractor: the grid after a `keep_candidates` call
(identity if the call raised). -/
def keepGrid (g : Grid) (i : Nat) (v : List Nat) : Grid :=
  match keep_candidates g i v with
  | .ok r => r.1
  | .error _ => g

/-- The all-blank grid with square 0 restricted to the single candidate 5. -/
def g5 : Grid := keepGrid gZeros 0 [5]

/-- A puzzle whose only given is a 3 in square 0. -/
def gC8 : Grid := mkGrid ((List.range 81).map (fun i => if i = 0 then 3 else 0))

/-! ### Claim C2 -/

/-- Claim C2 (code_bug): `keep_candidates` logs the removed digits as
`set(self._candidates - v)` computed AFTER `self._candidates` has
already been replaced by the intersection, so the logged digit set is
always empty.  Restricting square 0 of the all-blank board to `{1}`
removes the digits 2..9 from its candidate set, but the appended log
line is `"0-="`, carrying none of them (`Move.removeC 0 []`). -/
theorem c2_thm :
    candAt gZeros 0 = [1, 2, 3, 4, 5, 6, 7, 8, 9] ∧
    candAt (keepGrid gZeros 0 [1]) 0 = [1] ∧
    (keepGrid gZeros 0 [1]).moveStack = [Move.removeC 0 []] := by
  decide

/-! ### Claim C3 -/

/-- Claim C3 (confirmed): calling `keep_candidates` on an unsolved cell
with a set disjoint from the current candidates fails with the
contradiction error (`ValueError`, the spec's `ContradictionError`),
and the call is atomic: the embedding returns `.error` without any
successor grid, matching the Python code, which raises before touching
`self._candidates` or the move stack. -/
theorem c3_thm (g : Grid) (i : Nat) (v : List Nat)
    (hu : valAt g i = none)
    (hdisj : interL (candAt g i) v = []) :
    keep_candidates g i v = .error SudokuError.invalidCandidates :=
  keep_candidates_err hdisj

theorem c3_witness :
    valAt g5 0 = none ∧ interL (candAt g5 0) [7] = [] ∧
      keep_candidates g5 0 [7] = .error SudokuError.invalidCandidates :=
  ⟨by decide, by decide, c3_thm g5 0 [7] (by decide) (by decide)⟩

/-! ### Claim C10 -/

/-- Claim C10 (confirmed): on an unsolved cell, `keep_candidates` with a
digit set having non-empty intersection with the current candidates
succeeds, replaces the candidate set by the intersection, and reports
a change exactly when the current candidates are NOT already a subset
of the given set; in the no-change case the grid (including the move
log) is untouched. -/
theorem c10_thm (g : Grid) (i : Nat) (v : List Nat)
    (hu : valAt g i = none)
    (hd : ∀ x ∈ v, x ∈ digitsL)
    (hi : interL (candAt g i) v ≠ []) :
    ∃ g1 b, keep_candidates g i v = .ok (g1, b) ∧
      candAt g1 i = interL (candAt g i) v ∧
      (b = false ↔ subB (candAt g i) v = true) ∧
      (b = false → g1 = g) := by
  rcases keep_candidates_ok hd hi with ⟨g1, b, heq⟩
  refine ⟨g1, b, heq, keep_candidates_candAt heq, ?_, ?_⟩
  · have hall : v.all (fun x => decide (x ∈ digitsL)) = true := by
      simp only [List.all_eq_true]
      intro x hx
      simpa using hd x hx
    rcases keep_candidates_cases g i v hall hi with ⟨hsub, heq2⟩ | ⟨hsub, _, heq2⟩
    · rw [heq2] at heq
      cases heq
      simp [hsub]
    · rw [heq2] at heq
      cases heq
      simp [hsub]
  · intro hb
    subst hb
    exact keep_candidates_false heq

theorem c10_witness :
    valAt g5 0 = none ∧ (∀ x ∈ [5, 6], x ∈ digitsL) ∧
      interL (candAt g5 0) [5, 6] ≠ [] ∧
      (∃ g1 b, keep_candidates g5 0 [5, 6] = .ok (g1, b) ∧
        candAt g1 0 = interL (candAt g5 0) [5, 6] ∧
        (b = false ↔ subB (candAt g5 0) [5, 6] = true) ∧
        (b = false → g1 = g5)) :=
  ⟨by decide, by decide, by decide, c10_thm g5 0 [5, 6] (by decide) (by decide) (by decide)⟩

/-! ### Claim C4 -/

/-- Claim C4 (corrected), counterexample: assigning 5 to the unsolved
square 0 of the all-blank board succeeds, but contrary to the claim the
candidate set is NOT cleared (the caller pops it separately) and the
square is NOT removed from the board's unsolved list (the solve loop
removes it afterwards). -/
theorem c4_cex :
    (set_value gZeros 0 5).2 = none ∧
    valAt (set_value gZeros 0 5).1 0 = some 5 ∧
    candAt (set_value gZeros 0 5).1 0 = [1, 2, 3, 4, 5, 6, 7, 8, 9] ∧
    0 ∈ (set_value gZeros 0 5).1.unsolvedSquares := by
  decide

/-- Claim C4 (corrected): for an unsolved cell with digit 1-9 that is
present in its row/column/box unsolved lists, `assign` sets the value,
appends one Assign entry, and removes the cell from the three unit
unsolved lists; it leaves the candidate set and the board's
unsolved-square list untouched (the solve loop pops the candidate and
updates the board list itself). -/
theorem c4_thm (g : Grid) (i v : Nat)
    (hu : valAt g i = none) (hlen : i < g.squares.length) (hv : v ∈ digitsL)
    (hr : i ∈ g.rowUnsolved.getD (rowOf i) [])
    (hc : i ∈ g.colUnsolved.getD (colOf i) [])
    (hb : i ∈ g.boxUnsolved.getD (boxOf i) []) :
    (set_value g i v).2 = none ∧
    valAt (set_value g i v).1 i = some v ∧
    (set_value g i v).1.moveStack = g.moveStack ++ [Move.assign i v] ∧
    (set_value g i v).1.rowUnsolved =
      g.rowUnsolved.set (rowOf i) ((g.rowUnsolved.getD (rowOf i) []).erase i) ∧
    (set_value g i v).1.colUnsolved =
      g.colUnsolved.set (colOf i) ((g.colUnsolved.getD (colOf i) []).erase i) ∧
    (set_value g i v).1.boxUnsolved =
      g.boxUnsolved.set (boxOf i) ((g.boxUnsolved.getD (boxOf i) []).erase i) ∧
    candAt (set_value g i v).1 i = candAt g i ∧
    (set_value g i v).1.unsolvedSquares = g.unsolvedSquares := by
  rw [set_value_success hv hr hc hb]
  refine ⟨rfl, ?_, rfl, rfl, rfl, rfl, ?_, rfl⟩
  · show (getSq (svGridOk g i v) i).value = some v
    rw [getSq_svGridOk_self hlen]
  · show (getSq (svGridOk g i v) i).candidates = candAt g i
    rw [getSq_svGridOk_self hlen]

theorem c4_witness :
    valAt gZeros 0 = none ∧ 0 < gZeros.squares.length ∧ (5 ∈ digitsL) ∧
      0 ∈ gZeros.rowUnsolved.getD (rowOf 0) [] ∧
      0 ∈ gZeros.colUnsolved.getD (colOf 0) [] ∧
      0 ∈ gZeros.boxUnsolved.getD (boxOf 0) [] ∧
      ((set_value gZeros 0 5).2 = none ∧
       valAt (set_value gZeros 0 5).1 0 = some 5 ∧
       (set_value gZeros 0 5).1.moveStack = gZeros.moveStack ++ [Move.assign 0 5] ∧
       (set_value gZeros 0 5).1.rowUnsolved =
         gZeros.rowUnsolved.set (rowOf 0) ((gZeros.rowUnsolved.getD (rowOf 0) []).erase 0) ∧
       (set_value gZeros 0 5).1.colUnsolved =
         gZeros.colUnsolved.set (colOf 0) ((gZeros.colUnsolved.getD (colOf 0) []).erase 0) ∧
       (set_value gZeros 0 5).1.boxUnsolved =
         gZeros.boxUnsolved.set (boxOf 0) ((gZeros.boxUnsolved.getD (boxOf 0) []).erase 0) ∧
       candAt (set_value gZeros 0 5).1 0 = candAt gZeros 0 ∧
       (set_value gZeros 0 5).1.unsolvedSquares = gZeros.unsolvedSquares) :=
  ⟨by decide, by decide, by decide, by decide, by decide, by decide,
   c4_thm gZeros 0 5 (by decide) (by decide) (by decide) (by decide) (by decide) (by decide)⟩

/-! ### Claim C8 -/

/-- Claim C8 (corrected), counterexample: assigning the valid digit 5 to
the already-solved square 0 (a given 3) does fail -- but with the
`list.remove` error, not `InvalidValueError` -- and it does NOT leave
the cell unchanged: the stored value is overwritten with 5 and an
Assign entry is appended to the move log before the failure. -/
theorem c8_cex :
    valAt gC8 0 = some 3 ∧
    (set_value gC8 0 5).2 = some SudokuError.removeMissing ∧
    valAt (set_value gC8 0 5).1 0 = some 5 ∧
    (set_value gC8 0 5).1.moveStack = [Move.assign 0 5] := by
  decide

/-- Claim C8 (corrected): with a digit outside 1-9 the setter fails with
`InvalidValueError` and changes nothing; on an already-solved cell (one
absent from its row's unsolved list, as solved cells always are) with a
valid digit the call fails with the `list.remove` error, but only after
overwriting the stored value and appending an Assign entry; the
bookkeeping lists are left unchanged. -/
theorem c8_thm :
    (∀ g i v, v ∉ digitsL → set_value g i v = (g, some SudokuError.invalidValue)) ∧
    (∀ g i v, v ∈ digitsL → i < g.squares.length →
      i ∉ g.rowUnsolved.getD (rowOf i) [] →
      (set_value g i v).2 = some SudokuError.removeMissing ∧
      valAt (set_value g i v).1 i = some v ∧
      (set_value g i v).1.moveStack = g.moveStack ++ [Move.assign i v] ∧
      (set_value g i v).1.rowUnsolved = g.rowUnsolved ∧
      (set_value g i v).1.colUnsolved = g.colUnsolved ∧
      (set_value g i v).1.boxUnsolved = g.boxUnsolved ∧
      (set_value g i v).1.unsolvedSquares = g.unsolvedSquares) := by
  constructor
  · intro g i v hv
    exact set_value_not_digit hv
  · intro g i v hv hlen hr
    rw [set_value_missing_row hv hr]
    refine ⟨rfl, ?_, rfl, rfl, rfl, rfl, rfl⟩
    show ((g.squares.set i ⟨some v, candAt g i⟩).getD i default).value = some v
    rw [getD_set_self _ _ _ hlen]

theorem c8_witness :
    set_value gZeros 0 15 = (gZeros, some SudokuError.invalidValue) ∧
      ((set_value gC8 0 5).2 = some SudokuError.removeMissing ∧
       valAt (set_value gC8 0 5).1 0 = some 5 ∧
       (set_value gC8 0 5).1.moveStack = gC8.moveStack ++ [Move.assign 0 5] ∧
       (set_value gC8 0 5).1.rowUnsolved = gC8.rowUnsolved ∧
       (set_value gC8 0 5).1.colUnsolved = gC8.colUnsolved ∧
       (set_value gC8 0 5).1.boxUnsolved = gC8.boxUnsolved ∧
       (set_value gC8 0 5).1.unsolvedSquares = gC8.unsolvedSquares) :=
  ⟨c8_thm.1 gZeros 0 15 (by decide), c8_thm.2 gC8 0 5 (by decide) (by decide) (by decide)⟩

/-! ### Claim C5 -/

/-- The data-model invariant of the claim: a Solved cell has no
candidates, an Unsolved cell has a non-empty candidate set within 1..9,
and the board's unsolved list holds exactly the Unsolved cells. -/
def claimInvariant (g : Grid) : Prop :=
  (∀ i ∈ List.range g.squares.length,
    (valAt g i ≠ none → candAt g i = []) ∧
    (valAt g i = none → candAt g i ≠ [] ∧ ∀ x ∈ candAt g i, x ∈ digitsL) ∧
    (i ∈ g.unsolvedSquares ↔ valAt g i = none)) ∧
  (∀ i ∈ g.unsolvedSquares, i ∈ List.range g.squares.length)

/-- The invariant weakened exactly where the counterexample forces it:
an Unsolved cell's candidate set stays within 1..9 but may be empty. -/
def claimInvariantW (g : Grid) : Prop :=
  (∀ i ∈ List.range g.squares.length,
    (valAt g i ≠ none → candAt g i = []) ∧
    (valAt g i = none → ∀ x ∈ candAt g i, x ∈ digitsL) ∧
    (i ∈ g.unsolvedSquares ↔ valAt g i = none)) ∧
  (∀ i ∈ g.unsolvedSquares, i ∈ List.range g.squares.length)

instance claimInvariantDec (g : Grid) : Decidable (claimInvariant g) := by
  unfold claimInvariant
  infer_instance

instance claimInvariantWDec (g : Grid) : Decidable (claimInvariantW g) := by
  unfold claimInvariantW
  infer_instance

/-- Claim C5 (corrected), counterexample: the board `g5` (square 0
restricted to the single candidate 5, reachable from the blank board by
one restriction) satisfies the invariant, but after the mutation
`remove_candidate 0 5` square 0 is still Unsolved with an EMPTY
candidate set, violating invariant part (b). -/
theorem c5_cex :
    claimInvariant g5 ∧ ¬ claimInvariant (remove_candidate g5 0 5).1 := by
  constructor
  · decide
  · decide

/-- Claim C5 (corrected): `keep_candidates` preserves the full
invariant, and `remove_candidate` preserves it except that it can empty
an unsolved cell's candidate set; the assignment primitive on its own
does not maintain parts (a) and (d) (see the C4 record), they are
restored by the solve loop's pop-and-remove bookkeeping. -/
theorem c5_thm (g : Grid) (i v : Nat) (vs : List Nat) (h : claimInvariant g) :
    claimInvariantW (remove_candidate g i v).1 ∧
    (∀ g1 b, keep_candidates g i vs = .ok (g1, b) → claimInvariant g1) := by
  obtain ⟨h1, h2⟩ := h
  constructor
  · rcases remove_candidate_cases g i v with ⟨_, heq⟩ | ⟨hv, hlen, heq⟩
    · rw [heq]
      exact ⟨fun j hj => ⟨(h1 j hj).1, fun hn => ((h1 j hj).2.1 hn).2, (h1 j hj).2.2⟩, h2⟩
    · rw [heq]
      have hlen2 : (rcGrid g i v).squares.length = g.squares.length := by
        simp [rcGrid]
      constructor
      · intro j hj
        rw [hlen2] at hj
        have hjlt : j < g.squares.length := List.mem_range.mp hj
        by_cases hji : j = i
        · subst hji
          have hval : valAt g j = none := by
            by_contra hc
            have : candAt g j = [] := (h1 j hj).1 hc
            rw [this] at hv
            cases hv
          have hvr : valAt (rcGrid g j v) j = none := by
            show (getSq (rcGrid g j v) j).value = none
            rw [getSq_rcGrid_self hjlt]
            exact hval
          refine ⟨fun hc => absurd hvr hc, fun _ => ?_, ?_⟩
          · intro x hx
            have hce : candAt (rcGrid g j v) j = (candAt g j).erase v := by
              show (getSq (rcGrid g j v) j).candidates = _
              rw [getSq_rcGrid_self hjlt]
            rw [hce] at hx
            exact ((h1 j hj).2.1 hval).2 x (List.erase_subset _ _ hx)
          · show j ∈ g.unsolvedSquares ↔ _
            rw [hvr]
            simp [(h1 j hj).2.2, hval]
        · have hsame : getSq (rcGrid g i v) j = getSq g j := getSq_rcGrid_ne hji
          have hvs : valAt (rcGrid g i v) j = valAt g j := by
            show (getSq (rcGrid g i v) j).value = _
            rw [hsame]
            rfl
          have hcs : candAt (rcGrid g i v) j = candAt g j := by
            show (getSq (rcGrid g i v) j).candidates = _
            rw [hsame]
            rfl
          rw [hvs, hcs]
          exact ⟨(h1 j hj).1, fun hn => ((h1 j hj).2.1 hn).2, (h1 j hj).2.2⟩
      · intro j hj
        rw [hlen2]
        exact h2 j hj
  · intro g1 b heq
    have hinter : interL (candAt g i) vs ≠ [] := by
      intro hc
      rw [keep_candidates_err hc] at heq
      cases heq
    have hall : vs.all (fun x => decide (x ∈ digitsL)) = true := by
      by_contra hc
      simp only [keep_candidates] at heq
      have hb2 : (vs.all (fun x => decide (x ∈ digitsL)) &&
          !(interL (getSq g i).candidates vs).isEmpty) = false := by
        rw [Bool.and_eq_false_iff]
        left
        simpa using hc
      rw [hb2] at heq
      simp at heq
    rcases keep_candidates_cases g i vs hall hinter with ⟨_, heq2⟩ | ⟨_, hlen, heq2⟩
    · rw [heq2] at heq
      cases heq
      exact ⟨h1, h2⟩
    · rw [heq2] at heq
      cases heq
      have hval : valAt g i = none := by
        by_contra hc
        have hmem : i ∈ List.range g.squares.length := List.mem_range.mpr hlen
        have hce : candAt g i = [] := (h1 i hmem).1 hc
        rw [hce] at hinter
        exact hinter rfl
      have hlen2 : (kcGrid g i vs).squares.length = g.squares.length := by
        simp [kcGrid]
      constructor
      · intro j hj
        rw [hlen2] at hj
        by_cases hji : j = i
        · subst hji
          have hvr : valAt (kcGrid g j vs) j = none := by
            show (getSq (kcGrid g j vs) j).value = none
            rw [getSq_kcGrid_self hlen]
            exact hval
          have hcr : candAt (kcGrid g j vs) j = interL (candAt g j) vs := by
            show (getSq (kcGrid g j vs) j).candidates = _
            rw [getSq_kcGrid_self hlen]
          refine ⟨fun hc => absurd hvr hc, fun _ => ⟨?_, ?_⟩, ?_⟩
          · rw [hcr]
            exact hinter
          · rw [hcr]
            intro x hx
            exact ((h1 j hj).2.1 hval).2 x (interL_subset _ _ hx)
          · show j ∈ g.unsolvedSquares ↔ _
            rw [hvr]
            simp [(h1 j hj).2.2, hval]
        · have hsame : getSq (kcGrid g i vs) j = getSq g j := getSq_kcGrid_ne hji
          have hvs2 : valAt (kcGrid g i vs) j = valAt g j := by
            show (getSq (kcGrid g i vs) j).value = _
            rw [hsame]
            rfl
          have hcs : candAt (kcGrid g i vs) j = candAt g j := by
            show (getSq (kcGrid g i vs) j).candidates = _
            rw [hsame]
            rfl
          rw [hvs2, hcs]
          exact h1 j hj
      · intro j hj
        rw [hlen2]
        exact h2 j hj

theorem c5_witness :
    claimInvariant g5 ∧
      (claimInvariantW (remove_candidate g5 0 5).1 ∧
       (∀ g1 b, keep_candidates g5 0 [5] = .ok (g1, b) → claimInvariant g1)) :=
  ⟨by decide, c5_thm g5 0 5 [5] (by decide)⟩

/-! ### Generic fold invariants -/

theorem foldl_inv {α β : Type} {P : β → Prop} :
    ∀ (l : List α) (f : β → α → β) (b : β),
      (∀ b1 x, x ∈ l → P b1 → P (f b1 x)) → P b → P (l.foldl f b)
  | [], _, _, _, hb => hb
  | x :: xs, f, b, h, hb =>
    foldl_inv xs f (f b x) (fun b1 y hy => h b1 y (List.mem_cons_of_mem _ hy))
      (h b x (List.mem_cons_self _ _) hb)

theorem foldE_inv {α β : Type} {P : β → Prop} :
    ∀ (l : List α) (f : β → α → Except SudokuError β) (b : β),
      (∀ b1 x, x ∈ l → P b1 → ∃ b2, f b1 x = .ok b2 ∧ P b2) → P b →
      ∃ b2, foldE f b l = .ok b2 ∧ P b2
  | [], _, b, _, hb => ⟨b, rfl, hb⟩
  | x :: xs, f, b, h, hb => by
    rcases h b x (List.mem_cons_self _ _) hb with ⟨b1, heq, hP⟩
    rcases foldE_inv xs f b1 (fun b2 y hy => h b2 y (List.mem_cons_of_mem _ hy)) hP with
      ⟨b2, heq2, hP2⟩
    refine ⟨b2, ?_, hP2⟩
    show foldE f b (x :: xs) = .ok b2
    rw [foldE, heq]
    exact heq2

/-! ### The stage invariant: what one strategy call guarantees -/

/-- What every strategy call guarantees relative to its input grid: the
simulation relation holds; if the reported flag is false the grid is
unchanged; if it is true at least one move has been appended. -/
def StageInv (g : Grid) (r : Grid × Bool) : Prop :=
  SRel g r.1 ∧ (r.2 = false → r.1 = g) ∧ (r.2 = true → mcount g < mcount r.1)

theorem StageInv.srel {g : Grid} {r : Grid × Bool} (h : StageInv g r) : SRel g r.1 := h.1

theorem StageInv.base (g : Grid) : StageInv g (g, false) :=
  ⟨SRel.refl g, fun _ => rfl, by simp⟩

theorem StageInv.compose {g : Grid} {r r2 : Grid × Bool}
    (h1 : StageInv g r) (h2 : StageInv r.1 r2) :
    StageInv g (r2.1, r.2 || r2.2) := by
  obtain ⟨s1, f1, t1⟩ := h1
  obtain ⟨s2, f2, t2⟩ := h2
  refine ⟨SRel.trans s1 s2, ?_, ?_⟩
  · intro hff
    rcases Bool.or_eq_false_iff.mp hff with ⟨hr, hr2⟩
    rw [f2 hr2, f1 hr]
  · intro _
    show mcount g < mcount r2.1
    cases hb2 : r2.2 with
    | true =>
      have ht2 := t2 hb2
      have hm1 := s1.mono
      omega
    | false =>
      have hr21 : r2.1 = r.1 := f2 hb2
      cases hb : r.2 with
      | true =>
        have := t1 hb
        rw [hr21]
        omega
      | false =>
        have : r.2 || r2.2 = false := by rw [hb, hb2]; rfl
        simp_all

theorem StageInv.remove_step {g : Grid} {acc : Grid × Bool} (i v : Nat)
    (h : StageInv g acc) :
    StageInv g ((remove_candidate acc.1 i v).1, acc.2 || (remove_candidate acc.1 i v).2) :=
  h.compose ⟨remove_candidate_srel acc.1 i v,
    fun hf => remove_candidate_false hf,
    fun ht => by rw [remove_candidate_true_mcount ht]; omega⟩

theorem StageInv.keep_step {g : Grid} {acc : Grid × Bool} {i : Nat} {v : List Nat}
    {g1 : Grid} {b : Bool} (h : StageInv g acc)
    (heq : keep_candidates acc.1 i v = .ok (g1, b)) :
    StageInv g (g1, acc.2 || b) := by
  have h2 : StageInv acc.1 (g1, b) := by
    refine ⟨keep_candidates_srel heq, ?_, ?_⟩
    · intro hb
      subst hb
      exact keep_candidates_false heq
    · intro hb
      subst hb
      rw [keep_candidates_true_mcount heq]
      omega
  exact h.compose h2

/-! ### Stage invariants for the naked-subset strategies -/

theorem removeFromOthers_inv (un keepPos unsolved : List Nat) (g : Grid) :
    StageInv g (removeFromOthers un keepPos unsolved g) := by
  unfold removeFromOthers
  apply foldl_inv (P := fun acc => StageInv g acc) _ _ _ ?_ (StageInv.base g)
  intro acc z _ hacc
  by_cases hz : z ∈ keepPos
  · simpa [hz] using hacc
  · simp only [if_neg hz]
    apply foldl_inv (P := fun acc => StageInv g acc) _ _ _ ?_ hacc
    intro acc2 c _ hacc2
    exact hacc2.remove_step _ _

theorem find_naked_pairs_inv (g : Grid) (k : UnitKind) (u : Nat) :
    StageInv g (find_naked_pairs g k u) := by
  unfold find_naked_pairs
  apply foldl_inv (P := fun acc => StageInv g acc) _ _ _ ?_ (StageInv.base g)
  intro acc ij _ hacc
  cases hflag : acc.2 with
  | true => simpa [hflag] using hacc
  | false =>
    have hg : acc.1 = g := hacc.2.1 hflag
    simp only [hflag, Bool.false_eq_true, if_false]
    split
    · rw [hg]
      exact removeFromOthers_inv _ _ _ g
    · exact hacc

theorem find_naked_triples_inv (g : Grid) (k : UnitKind) (u : Nat) :
    StageInv g (find_naked_triples g k u) := by
  unfold find_naked_triples
  apply foldl_inv (P := fun acc => StageInv g acc) _ _ _ ?_ (StageInv.base g)
  intro acc t _ hacc
  cases hflag : acc.2 with
  | true => simpa [hflag] using hacc
  | false =>
    have hg : acc.1 = g := hacc.2.1 hflag
    simp only [hflag, Bool.false_eq_true, if_false]
    split
    · rw [hg]
      exact removeFromOthers_inv _ _ _ g
    · exact hacc

theorem find_naked_quadruples_inv (g : Grid) (k : UnitKind) (u : Nat) :
    StageInv g (find_naked_quadruples g k u) := by
  unfold find_naked_quadruples
  apply foldl_inv (P := fun acc => StageInv g acc) _ _ _ ?_ (StageInv.base g)
  intro acc q _ hacc
  cases hflag : acc.2 with
  | true => simpa [hflag] using hacc
  | false =>
    have hg : acc.1 = g := hacc.2.1 hflag
    simp only [hflag, Bool.false_eq_true, if_false]
    split
    · rw [hg]
      exact removeFromOthers_inv _ _ _ g
    · exact hacc

/-! ### Stage invariants for the hidden-subset strategies -/

theorem mem_positionsFor {g : Grid} {unsolved : List Nat} {d p : Nat}
    (h : p ∈ positionsFor g unsolved d) : d ∈ candAt g (unsolved.getD p 0) := by
  have := (List.mem_filter.mp h).2
  simpa using this

theorem mem_unsolvedNums {g : Grid} {unsolved : List Nat} {d : Nat}
    (h : d ∈ unsolvedNums g unsolved) : d ∈ digitsL :=
  (List.mem_filter.mp h).1

theorem mem_pairsOf {l : List Nat} {p : Nat × Nat} (h : p ∈ pairsOf l) :
    p.1 ∈ l ∧ p.2 ∈ l ∧ p.1 < p.2 := by
  simp only [pairsOf, List.mem_bind, List.mem_map, List.mem_filter] at h
  rcases h with ⟨a, ha, b, ⟨hb, hab⟩, heq⟩
  subst heq
  exact ⟨ha, hb, by simpa using hab⟩

theorem mem_triplesOf {l : List Nat} {t : Nat × Nat × Nat} (h : t ∈ triplesOf l) :
    t.1 ∈ l ∧ t.2.1 ∈ l ∧ t.2.2 ∈ l := by
  simp only [triplesOf, List.mem_bind, List.mem_map, List.mem_filter] at h
  rcases h with ⟨ij, hij, z, ⟨hz, _⟩, heq⟩
  subst heq
  have := mem_pairsOf hij
  exact ⟨this.1, this.2.1, hz⟩

theorem mem_quadsOf {l : List Nat} {q : Nat × Nat × Nat × Nat} (h : q ∈ quadsOf l) :
    q.1 ∈ l ∧ q.2.1 ∈ l ∧ q.2.2.1 ∈ l ∧ q.2.2.2 ∈ l := by
  simp only [quadsOf, List.mem_bind, List.mem_map, List.mem_filter] at h
  rcases h with ⟨t, ht, z, ⟨hz, _⟩, heq⟩
  subst heq
  have := mem_triplesOf ht
  exact ⟨this.1, this.2.1, this.2.2, hz⟩

theorem keepAtPositions_inv (ps ds unsolved : List Nat) (g : Grid)
    (hd : ∀ x ∈ ds, x ∈ digitsL)
    (hps : ∀ p ∈ ps, interL (candAt g (unsolved.getD p 0)) ds ≠ []) :
    ∃ r, keepAtPositions ps ds unsolved g = .ok r ∧ StageInv g r := by
  have hstep : ∀ (acc : Grid × Bool) (p : Nat), p ∈ ps →
      (StageInv g acc ∧ ∀ q ∈ ps, interL (candAt acc.1 (unsolved.getD q 0)) ds ≠ []) →
      ∃ b2, (keep_candidates acc.1 (unsolved.getD p 0) ds).map
          (fun r => (r.1, acc.2 || r.2)) = .ok b2 ∧
        (StageInv g b2 ∧ ∀ q ∈ ps, interL (candAt b2.1 (unsolved.getD q 0)) ds ≠ []) := by
    intro acc p hp hP
    obtain ⟨hinv, hall⟩ := hP
    rcases keep_candidates_ok (g := acc.1) (i := unsolved.getD p 0) hd (hall p hp) with
      ⟨g1, b, heq⟩
    refine ⟨(g1, acc.2 || b), ?_, hinv.keep_step heq, ?_⟩
    · rw [heq]
      rfl
    · intro q hq
      by_cases htq : unsolved.getD q 0 = unsolved.getD p 0
      · rw [htq]
        have hc1 : candAt g1 (unsolved.getD p 0) =
            interL (candAt acc.1 (unsolved.getD p 0)) ds := keep_candidates_candAt heq
        rw [hc1, interL_interL]
        exact hall p hp
      · have hgs : getSq g1 (unsolved.getD q 0) = getSq acc.1 (unsolved.getD q 0) :=
          keep_candidates_getSq_ne heq htq
        show interL (getSq g1 (unsolved.getD q 0)).candidates ds ≠ []
        rw [hgs]
        exact hall q hq
  rcases foldE_inv ps _ ((g : Grid), false) hstep ⟨StageInv.base g, hps⟩ with ⟨r, heq, hP⟩
  exact ⟨r, heq, hP.1⟩

theorem find_hidden_singles_inv (g : Grid) (k : UnitKind) (u : Nat) :
    ∃ r, find_hidden_singles g k u = .ok r ∧ StageInv g r := by
  unfold find_hidden_singles
  apply foldE_inv (P := fun acc => StageInv g acc) _ _ _ ?_ (StageInv.base g)
  intro acc d hd hacc
  cases hflag : acc.2 with
  | true =>
    refine ⟨acc, ?_, hacc⟩
    simp
  | false =>
    have hg : acc.1 = g := hacc.2.1 hflag
    simp only [hflag, Bool.false_eq_true, if_false]
    split
    · rw [hg]
      apply keepAtPositions_inv
      · intro x hx
        rcases List.mem_singleton.mp hx with rfl
        exact mem_unsolvedNums hd
      · intro p hp
        have hmem := mem_positionsFor hp
        intro hc
        have : d ∈ interL (candAt g ((unitUnsolved g k u).getD p 0)) [d] :=
          mem_interL.mpr ⟨hmem, List.mem_singleton.mpr rfl⟩
        rw [hc] at this
        cases this
    · exact ⟨acc, rfl, hacc⟩

theorem find_hidden_pairs_inv (g : Grid) (k : UnitKind) (u : Nat) :
    ∃ r, find_hidden_pairs g k u = .ok r ∧ StageInv g r := by
  unfold find_hidden_pairs
  apply foldE_inv (P := fun acc => StageInv g acc) _ _ _ ?_ (StageInv.base g)
  intro acc ij hij hacc
  cases hflag : acc.2 with
  | true =>
    refine ⟨acc, ?_, hacc⟩
    simp
  | false =>
    have hg : acc.1 = g := hacc.2.1 hflag
    simp only [hflag, Bool.false_eq_true, if_false]
    split
    · rw [hg]
      apply keepAtPositions_inv
      · intro x hx
        rcases List.mem_cons.mp hx with rfl | hx2
        · exact mem_unsolvedNums (mem_pairsOf hij).1
        · rcases List.mem_singleton.mp hx2 with rfl
          exact mem_unsolvedNums (mem_pairsOf hij).2.1
      · intro p hp
        rcases mem_unionS.mp hp with hp1 | hp2
        · have hmem := mem_positionsFor hp1
          intro hc
          have : ij.1 ∈ interL (candAt g ((unitUnsolved g k u).getD p 0)) [ij.1, ij.2] :=
            mem_interL.mpr ⟨hmem, by simp⟩
          rw [hc] at this
          cases this
        · have hmem := mem_positionsFor hp2
          intro hc
          have : ij.2 ∈ interL (candAt g ((unitUnsolved g k u).getD p 0)) [ij.1, ij.2] :=
            mem_interL.mpr ⟨hmem, by simp⟩
          rw [hc] at this
          cases this
    · exact ⟨acc, rfl, hacc⟩

theorem find_hidden_triples_inv (g : Grid) (k : UnitKind) (u : Nat) :
    ∃ r, find_hidden_triples g k u = .ok r ∧ StageInv g r := by
  unfold find_hidden_triples
  apply foldE_inv (P := fun acc => StageInv g acc) _ _ _ ?_ (StageInv.base g)
  intro acc t ht hacc
  cases hflag : acc.2 with
  | true =>
    refine ⟨acc, ?_, hacc⟩
    simp
  | false =>
    have hg : acc.1 = g := hacc.2.1 hflag
    simp only [hflag, Bool.false_eq_true, if_false]
    split
    · rw [hg]
      apply keepAtPositions_inv
      · intro x hx
        have hms := mem_triplesOf ht
        rcases List.mem_cons.mp hx with rfl | hx2
        · exact mem_unsolvedNums hms.1
        · rcases List.mem_cons.mp hx2 with rfl | hx3
          · exact mem_unsolvedNums hms.2.1
          · rcases List.mem_singleton.mp hx3 with rfl
            exact mem_unsolvedNums hms.2.2
      · intro p hp
        rcases mem_unionS.mp hp with hp1 | hp2
        · rcases mem_unionS.mp hp1 with hp11 | hp12
          · have hmem := mem_positionsFor hp11
            intro hc
            have : t.1 ∈ interL (candAt g ((unitUnsolved g k u).getD p 0))
                [t.1, t.2.1, t.2.2] := mem_interL.mpr ⟨hmem, by simp⟩
            rw [hc] at this
            cases this
          · have hmem := mem_positionsFor hp12
            intro hc
            have : t.2.1 ∈ interL (candAt g ((unitUnsolved g k u).getD p 0))
                [t.1, t.2.1, t.2.2] := mem_interL.mpr ⟨hmem, by simp⟩
            rw [hc] at this
            cases this
        · have hmem := mem_positionsFor hp2
          intro hc
          have : t.2.2 ∈ interL (candAt g ((unitUnsolved g k u).getD p 0))
              [t.1, t.2.1, t.2.2] := mem_interL.mpr ⟨hmem, by simp⟩
          rw [hc] at this
          cases this
    · exact ⟨acc, rfl, hacc⟩

theorem find_hidden_quadruples_inv (g : Grid) (k : UnitKind) (u : Nat) :
    ∃ r, find_hidden_quadruples g k u = .ok r ∧ StageInv g r := by
  unfold find_hidden_quadruples
  apply foldE_inv (P := fun acc => StageInv g acc) _ _ _ ?_ (StageInv.base g)
  intro acc q hq hacc
  cases hflag : acc.2 with
  | true =>
    refine ⟨acc, ?_, hacc⟩
    simp
  | false =>
    have hg : acc.1 = g := hacc.2.1 hflag
    simp only [hflag, Bool.false_eq_true, if_false]
    split
    · rw [hg]
      apply keepAtPositions_inv
      · intro x hx
        have hms := mem_quadsOf hq
        rcases List.mem_cons.mp hx with rfl | hx2
        · exact mem_unsolvedNums hms.1
        · rcases List.mem_cons.mp hx2 with rfl | hx3
          · exact mem_unsolvedNums hms.2.1
          · rcases List.mem_cons.mp hx3 with rfl | hx4
            · exact mem_unsolvedNums hms.2.2.1
            · rcases List.mem_singleton.mp hx4 with rfl
              exact mem_unsolvedNums hms.2.2.2
      · intro p hp
        rcases mem_unionS.mp hp with hp1 | hp2
        · rcases mem_unionS.mp hp1 with hp11 | hp12
          · rcases mem_unionS.mp hp11 with hp111 | hp112
            · have hmem := mem_positionsFor hp111
              intro hc
              have : q.1 ∈ interL (candAt g ((unitUnsolved g k u).getD p 0))
                  [q.1, q.2.1, q.2.2.1, q.2.2.2] := mem_interL.mpr ⟨hmem, by simp⟩
              rw [hc] at this
              cases this
            · have hmem := mem_positionsFor hp112
              intro hc
              have : q.2.1 ∈ interL (candAt g ((unitUnsolved g k u).getD p 0))
                  [q.1, q.2.1, q.2.2.1, q.2.2.2] := mem_interL.mpr ⟨hmem, by simp⟩
              rw [hc] at this
              cases this
          · have hmem := mem_positionsFor hp12
            intro hc
            have : q.2.2.1 ∈ interL (candAt g ((unitUnsolved g k u).getD p 0))
                [q.1, q.2.1, q.2.2.1, q.2.2.2] := mem_interL.mpr ⟨hmem, by simp⟩
            rw [hc] at this
            cases this
        · have hmem := mem_positionsFor hp2
          intro hc
          have : q.2.2.2 ∈ interL (candAt g ((unitUnsolved g k u).getD p 0))
              [q.1, q.2.1, q.2.2.1, q.2.2.2] := mem_interL.mpr ⟨hmem, by simp⟩
          rw [hc] at this
          cases this
    · exact ⟨acc, rfl, hacc⟩

/-! ### Stage invariants for the line strategies and X-Wings -/

theorem innerRemoveFold_inv (gbase : Grid) (c : List Nat) (d : Nat) (lst : List Nat) :
    StageInv gbase (lst.foldl (fun a2 s =>
      if s ∈ c then a2
      else
        let rr := remove_candidate a2.1 s d
        (rr.1, a2.2 || rr.2)) ((gbase : Grid), false)) := by
  apply foldl_inv (P := fun acc => StageInv gbase acc) _ _ _ ?_ (StageInv.base gbase)
  intro acc s _ hacc
  by_cases hs : s ∈ c
  · simpa [hs] using hacc
  · simp only [if_neg hs]
    exact hacc.remove_step _ _

theorem lineFold_inv {g : Grid} (c : List Nat) (d : Nat) (kind : UnitKind)
    (lines : List Nat) (acc : Grid × Bool) (h : StageInv g acc) :
    StageInv g (lines.foldl (fun a r =>
      let res := (unitUnsolved a.1 kind r).foldl (fun a2 s =>
        if s ∈ c then a2
        else
          let rr := remove_candidate a2.1 s d
          (rr.1, a2.2 || rr.2)) ((a.1 : Grid), false)
      (res.1, a.2 || res.2)) acc) := by
  apply foldl_inv (P := fun a => StageInv g a) _ _ _ ?_ h
  intro a r _ ha
  exact ha.compose (innerRemoveFold_inv a.1 c d (unitUnsolved a.1 kind r))

theorem find_naked_lines_inv (g : Grid) (k : UnitKind) (u : Nat) :
    StageInv g (find_naked_lines g k u) := by
  cases k with
  | box =>
    unfold find_naked_lines
    apply foldl_inv (P := fun acc => StageInv g acc) _ _ _ ?_ (StageInv.base g)
    intro acc d _ hacc
    dsimp only
    split
    · exact hacc
    · split
      · split
        · exact lineFold_inv _ _ _ _ _ (lineFold_inv _ _ _ _ _ hacc)
        · exact lineFold_inv _ _ _ _ _ hacc
      · split
        · exact lineFold_inv _ _ _ _ _ hacc
        · exact hacc
  | row => exact StageInv.base g
  | column => exact StageInv.base g

theorem find_hidden_lines_inv (g : Grid) (k : UnitKind) (u : Nat) :
    StageInv g (find_hidden_lines g k u) := by
  cases k with
  | box => exact StageInv.base g
  | row =>
    unfold find_hidden_lines
    apply foldl_inv (P := fun acc => StageInv g acc) _ _ _ ?_ (StageInv.base g)
    intro acc d _ hacc
    dsimp only
    split
    · exact hacc
    · split
      · exact lineFold_inv _ _ _ _ _ hacc
      · exact hacc
  | column =>
    unfold find_hidden_lines
    apply foldl_inv (P := fun acc => StageInv g acc) _ _ _ ?_ (StageInv.base g)
    intro acc d _ hacc
    dsimp only
    split
    · exact hacc
    · split
      · exact lineFold_inv _ _ _ _ _ hacc
      · exact hacc

theorem xwRemoveFold_inv (gbase : Grid) (d : Nat) (jk : Nat × Nat) (un : List Nat)
    (cross : Nat → List Nat) :
    StageInv gbase (un.foldl (fun a c =>
      (List.range 9).foldl (fun a2 z =>
        if z = jk.1 ∨ z = jk.2 then a2
        else
          let r := remove_candidate a2.1 ((cross c).getD z 0) d
          (r.1, a2.2 || r.2)) a) ((gbase : Grid), false)) := by
  apply foldl_inv (P := fun acc => StageInv gbase acc) _ _ _ ?_ (StageInv.base gbase)
  intro a c _ ha
  apply foldl_inv (P := fun acc => StageInv gbase acc) _ _ _ ?_ ha
  intro a2 z _ ha2
  by_cases hz : z = jk.1 ∨ z = jk.2
  · simpa [hz] using ha2
  · simp only [if_neg hz]
    exact ha2.remove_step _ _

theorem find_x_wing_inv (g : Grid) (d : Nat) (lines cross : Nat → List Nat) :
    StageInv g (find_x_wing g d lines cross) := by
  unfold find_x_wing
  apply foldl_inv (P := fun acc => StageInv g acc) _ _ _ ?_ (StageInv.base g)
  intro acc jk _ hacc
  cases hflag : acc.2 with
  | true => simpa [hflag] using hacc
  | false =>
    have hg : acc.1 = g := hacc.2.1 hflag
    simp only [hflag, Bool.false_eq_true, if_false]
    split
    · rw [hg]
      exact xwRemoveFold_inv g d jk _ cross
    · exact hacc

theorem find_x_wings_inv (g : Grid) (hne : ¬ (g.unsolvedSquares.isEmpty = true)) :
    ∃ r, find_x_wings g = .ok r ∧ StageInv g r := by
  unfold find_x_wings
  rw [if_neg hne]
  refine ⟨_, rfl, ?_⟩
  apply foldl_inv (P := fun acc => StageInv g acc) _ _ _ ?_ (StageInv.base g)
  intro acc d _ hacc
  cases hflag : acc.2 with
  | true => simpa [hflag] using hacc
  | false =>
    have hg : acc.1 = g := hacc.2.1 hflag
    simp only [hflag, Bool.false_eq_true, if_false]
    split
    · next hr1 =>
      have h1 : StageInv acc.1 (find_x_wing acc.1 d rowIdxs colIdxs) :=
        find_x_wing_inv acc.1 d rowIdxs colIdxs
      have h2 := hacc.compose h1
      rw [hflag] at h2
      simp only [Bool.false_or] at h2
      rw [hr1] at h2
      exact h2
    · next hr1 =>
      have hr1f : (find_x_wing acc.1 d rowIdxs colIdxs).2 = false := by
        simpa using hr1
      have heq1 : (find_x_wing acc.1 d rowIdxs colIdxs).1 = acc.1 :=
        (find_x_wing_inv acc.1 d rowIdxs colIdxs).2.1 hr1f
      rw [heq1, hg]
      exact find_x_wing_inv g d colIdxs rowIdxs

/-! ### Composing the stages of `update_notation` -/

theorem stageFold_srel (f : Grid → UnitKind → Nat → Grid × Bool)
    (hf : ∀ g1 k u, SRel g1 (f g1 k u).1) (g : Grid) (a : Bool) :
    SRel g (stageFold f g a).1 := by
  unfold stageFold
  apply foldl_inv (P := fun (acc : Grid × Bool) => SRel g acc.1) _ _ _ ?_ (SRel.refl g)
  intro acc ku _ hacc
  exact SRel.trans hacc (hf acc.1 ku.1 ku.2)

theorem stageFoldE_srel (f : Grid → UnitKind → Nat → Except SudokuError (Grid × Bool))
    (hf : ∀ g1 k u, ∃ r, f g1 k u = .ok r ∧ SRel g1 r.1) (g : Grid) (a : Bool) :
    ∃ r, stageFoldE f g a = .ok r ∧ SRel g r.1 := by
  unfold stageFoldE
  apply foldE_inv (P := fun (acc : Grid × Bool) => SRel g acc.1) _ _ _ ?_ (SRel.refl g)
  intro acc ku _ hacc
  rcases hf acc.1 ku.1 ku.2 with ⟨r, heq, hs⟩
  refine ⟨(r.1, acc.2 || r.2), ?_, SRel.trans hacc hs⟩
  rw [heq]
  rfl

theorem removeList_inv {g : Grid} (acc : Grid × Bool) (i : Nat) (vs : List Nat)
    (h : StageInv g acc) : StageInv g (removeList acc i vs) := by
  unfold removeList
  apply foldl_inv (P := fun a => StageInv g a) _ _ _ ?_ h
  intro a v _ ha
  exact ha.remove_step _ _

theorem pruneStage_inv (g : Grid) : StageInv g (pruneStage g) := by
  unfold pruneStage
  apply foldl_inv (P := fun acc => StageInv g acc) _ _ _ ?_ (StageInv.base g)
  intro acc i _ hacc
  exact removeList_inv _ _ _ (removeList_inv _ _ _ (removeList_inv _ _ _ hacc))

theorem hiddenSinglesStage_srel (g : Grid) (a : Bool) :
    ∃ r, hiddenSinglesStage g a = .ok r ∧ SRel g r.1 := by
  unfold hiddenSinglesStage
  apply stageFoldE_srel
  intro g1 k u
  rcases find_hidden_singles_inv g1 k u with ⟨r, heq, hinv⟩
  exact ⟨r, heq, hinv.srel⟩

theorem interPass_inv (g : Grid) : StageInv g (interPass g) := by
  unfold interPass
  apply foldl_inv (P := fun acc => StageInv g acc) _ _ _ ?_ ?_
  · intro acc ku _ hacc
    exact hacc.compose (find_hidden_lines_inv acc.1 ku.1 ku.2)
  · apply foldl_inv (P := fun acc => StageInv g acc) _ _ _ ?_ (StageInv.base g)
    intro acc u _ hacc
    exact hacc.compose (find_naked_lines_inv acc.1 UnitKind.box u)

theorem exbind_ok {ε α β : Type} (a : α) (f : α → Except ε β) :
    (Except.ok a).bind f = f a := rfl

theorem exmap_ok {ε α β : Type} (a : α) (f : α → β) :
    (Except.ok a : Except ε α).map f = Except.ok (f a) := rfl

section StageIrred

attribute [local irreducible] interPass stageFold stageFoldE pruneStage
attribute [local irreducible] hiddenSinglesStage find_x_wings interLoop candTotal

theorem interLoop_srel (fuel : Nat) : ∀ (g : Grid) (a : Bool),
    SRel g (interLoop fuel g a).1 := by
  induction fuel with
  | zero =>
    intro g a
    simp only [interLoop]
    exact SRel.refl g
  | succ fuel ih =>
    intro g a
    simp only [interLoop]
    by_cases hp : (interPass g).2 = true
    · rw [if_pos hp]
      exact SRel.trans (interPass_inv g).srel (ih _ true)
    · rw [if_neg hp]
      exact (interPass_inv g).srel

theorem pairsTriplesBlock_srel (g : Grid) :
    ∃ r, pairsTriplesBlock g = .ok r ∧ SRel g r.1 := by
  have hs1 : SRel g (stageFold find_naked_pairs g false).1 :=
    stageFold_srel _ (fun g1 k u => (find_naked_pairs_inv g1 k u).srel) g false
  rcases stageFoldE_srel find_hidden_pairs
      (fun g1 k u => by
        rcases find_hidden_pairs_inv g1 k u with ⟨r, heq, hinv⟩
        exact ⟨r, heq, hinv.srel⟩)
      (stageFold find_naked_pairs g false).1 (stageFold find_naked_pairs g false).2 with
    ⟨s2, heq2, hs2⟩
  have hs3 : SRel s2.1 (stageFold find_naked_triples s2.1 s2.2).1 :=
    stageFold_srel _ (fun g1 k u => (find_naked_triples_inv g1 k u).srel) s2.1 s2.2
  rcases stageFoldE_srel find_hidden_triples
      (fun g1 k u => by
        rcases find_hidden_triples_inv g1 k u with ⟨r, heq, hinv⟩
        exact ⟨r, heq, hinv.srel⟩)
      (stageFold find_naked_triples s2.1 s2.2).1 (stageFold find_naked_triples s2.1 s2.2).2 with
    ⟨s4, heq4, hs4⟩
  refine ⟨s4, ?_, SRel.trans (SRel.trans hs1 hs2) (SRel.trans hs3 hs4)⟩
  show (stageFoldE find_hidden_pairs (stageFold find_naked_pairs g false).1
      (stageFold find_naked_pairs g false).2).bind (fun s2 =>
      stageFoldE find_hidden_triples (stageFold find_naked_triples s2.1 s2.2).1
        (stageFold find_naked_triples s2.1 s2.2).2) = Except.ok s4
  rw [heq2, exbind_ok]
  exact heq4

theorem quadsBlock_srel (g : Grid) :
    ∃ r, quadsBlock g = .ok r ∧ SRel g r.1 := by
  have hs5 : SRel g (stageFold find_naked_quadruples g false).1 :=
    stageFold_srel _ (fun g1 k u => (find_naked_quadruples_inv g1 k u).srel) g false
  rcases stageFoldE_srel find_hidden_quadruples
      (fun g1 k u => by
        rcases find_hidden_quadruples_inv g1 k u with ⟨r, heq, hinv⟩
        exact ⟨r, heq, hinv.srel⟩)
      (stageFold find_naked_quadruples g false).1
      (stageFold find_naked_quadruples g false).2 with ⟨s6, heq6, hs6⟩
  refine ⟨s6, ?_, SRel.trans hs5 hs6⟩
  show stageFoldE find_hidden_quadruples (stageFold find_naked_quadruples g false).1
      (stageFold find_naked_quadruples g false).2 = Except.ok s6
  exact heq6

/-- `update_notation` on a grid with at least one unsolved square never
raises and satisfies the simulation relation. -/
theorem updateMarks_ok (g : Grid) (hne : g.unsolvedSquares ≠ []) :
    ∃ g1, updateMarks g = .ok g1 ∧ SRel g g1 := by
  have hp : SRel g (pruneStage g).1 := (pruneStage_inv g).srel
  rcases hiddenSinglesStage_srel (pruneStage g).1 (pruneStage g).2 with ⟨hs, heqh, hsr⟩
  have hs02 : SRel g hs.1 := SRel.trans hp hsr
  have hbody : updateMarks g =
      (if hs.2 then Except.ok hs.1
       else
         if (interLoop (candTotal hs.1 + 1) hs.1 false).2 then
           Except.ok (interLoop (candTotal hs.1 + 1) hs.1 false).1
         else
           (pairsTriplesBlock (interLoop (candTotal hs.1 + 1) hs.1 false).1).bind (fun pt =>
             if pt.2 then Except.ok pt.1
             else
               (quadsBlock pt.1).bind (fun qb =>
                 if qb.2 then Except.ok qb.1
                 else (find_x_wings qb.1).map (fun xw => xw.1)))) := by
    show (hiddenSinglesStage (pruneStage g).1 (pruneStage g).2).bind _ = _
    rw [heqh]
    exact exbind_ok hs _
  rw [hbody]
  by_cases hflag : hs.2 = true
  · refine ⟨hs.1, ?_, hs02⟩
    rw [if_pos hflag]
  · rw [if_neg hflag]
    have hil : SRel g (interLoop (candTotal hs.1 + 1) hs.1 false).1 :=
      SRel.trans hs02 (interLoop_srel _ _ _)
    by_cases hflag2 : (interLoop (candTotal hs.1 + 1) hs.1 false).2 = true
    · refine ⟨(interLoop (candTotal hs.1 + 1) hs.1 false).1, ?_, hil⟩
      rw [if_pos hflag2]
    · rw [if_neg hflag2]
      rcases pairsTriplesBlock_srel (interLoop (candTotal hs.1 + 1) hs.1 false).1 with
        ⟨pt, heqp, hptr⟩
      have hpt : SRel g pt.1 := SRel.trans hil hptr
      simp only [heqp, exbind_ok]
      by_cases hflag3 : pt.2 = true
      · refine ⟨pt.1, ?_, hpt⟩
        rw [if_pos hflag3]
      · rw [if_neg hflag3]
        rcases quadsBlock_srel pt.1 with ⟨qb, heqq, hqbr⟩
        have hqb : SRel g qb.1 := SRel.trans hpt hqbr
        simp only [heqq, exbind_ok]
        by_cases hflag4 : qb.2 = true
        · refine ⟨qb.1, ?_, hqb⟩
          rw [if_pos hflag4]
        · rw [if_neg hflag4]
          have hneq : ¬ (qb.1.unsolvedSquares.isEmpty = true) := by
            rw [List.isEmpty_iff, hqb.uns]
            exact hne
          rcases find_x_wings_inv qb.1 hneq with ⟨xw, heqx, hxinv⟩
          refine ⟨xw.1, ?_, SRel.trans hqb hxinv.srel⟩
          rw [heqx, exmap_ok]

end StageIrred

/-! ### Well-formedness of the solver state (towards claim C7) -/

/-- The bookkeeping invariant maintained by `Puzzle.solve`: 81 squares,
nine per-unit unsolved lists, candidate sets within 1..9, the board's
unsolved list duplicate-free and containing every value-less square, and
every value-less square present in its row's, column's and box's
unsolved list. -/
structure WF (g : Grid) : Prop where
  len81 : g.squares.length = 81
  rlen : g.rowUnsolved.length = 9
  clen : g.colUnsolved.length = 9
  blen : g.boxUnsolved.length = 9
  candsub : ∀ i, candAt g i ⊆ digitsL
  unsNodup : g.unsolvedSquares.Nodup
  unsMem : ∀ i ∈ g.unsolvedSquares, i < 81 ∧ valAt g i = none
  noneMem : ∀ i, i < 81 → valAt g i = none → i ∈ g.unsolvedSquares
  rowMem : ∀ i, i < 81 → valAt g i = none → i ∈ g.rowUnsolved.getD (rowOf i) []
  colMem : ∀ i, i < 81 → valAt g i = none → i ∈ g.colUnsolved.getD (colOf i) []
  boxMem : ∀ i, i < 81 → valAt g i = none → i ∈ g.boxUnsolved.getD (boxOf i) []

/-- Candidate-removing stages preserve well-formedness. -/
theorem WF.preserved {g g1 : Grid} (hwf : WF g) (h : SRel g g1) : WF g1 where
  len81 := h.len.trans hwf.len81
  rlen := h.rowU ▸ hwf.rlen
  clen := h.colU ▸ hwf.clen
  blen := h.boxU ▸ hwf.blen
  candsub := fun i => (h.cands i).trans (hwf.candsub i)
  unsNodup := h.uns ▸ hwf.unsNodup
  unsMem := by
    intro i hi
    rw [h.uns] at hi
    rcases hwf.unsMem i hi with ⟨h1, h2⟩
    exact ⟨h1, (h.vals i).trans h2⟩
  noneMem := fun i h1 h2 => h.uns ▸ hwf.noneMem i h1 ((h.vals i).symm.trans h2)
  rowMem := fun i h1 h2 => h.rowU ▸ hwf.rowMem i h1 ((h.vals i).symm.trans h2)
  colMem := fun i h1 h2 => h.colU ▸ hwf.colMem i h1 ((h.vals i).symm.trans h2)
  boxMem := fun i h1 h2 => h.boxU ▸ hwf.boxMem i h1 ((h.vals i).symm.trans h2)

theorem getSq_mkGrid {values : List Nat} {i : Nat} (h : i < values.length) :
    getSq (mkGrid values) i = mkSquare (values.getD i 1) := by
  have h2 : i < (values.map mkSquare).length := by simpa using h
  show (values.map mkSquare).getD i default = mkSquare (values.getD i 1)
  rw [List.getD_eq_getElem _ _ h2, List.getD_eq_getElem _ _ h]
  simp

theorem mkSquare_cand_sub {v : Nat} : (mkSquare v).candidates ⊆ digitsL := by
  unfold mkSquare
  split
  · exact fun x hx => hx
  · exact List.nil_subset _

theorem mkGrid_value_zero {values : List Nat} {i : Nat} (h : i < values.length)
    (hnone : valAt (mkGrid values) i = none) : values.getD i 1 = 0 := by
  rw [valAt, getSq_mkGrid h] at hnone
  by_contra hne
  unfold mkSquare at hnone
  rw [if_neg hne] at hnone
  simp at hnone

theorem mkGrid_rowU {values : List Nat} {r : Nat} (h : r < 9) :
    (mkGrid values).rowUnsolved.getD r [] =
      (rowIdxs r).filter (fun j => decide (values.getD j 1 = 0)) := by
  show (((List.range 9).map
      (fun u => (rowIdxs u).filter (fun j => decide (values.getD j 1 = 0)))).getD r []) = _
  rw [List.getD_eq_getElem _ _ (by simpa using h)]
  simp

theorem mkGrid_colU {values : List Nat} {c : Nat} (h : c < 9) :
    (mkGrid values).colUnsolved.getD c [] =
      (colIdxs c).filter (fun j => decide (values.getD j 1 = 0)) := by
  show (((List.range 9).map
      (fun u => (colIdxs u).filter (fun j => decide (values.getD j 1 = 0)))).getD c []) = _
  rw [List.getD_eq_getElem _ _ (by simpa using h)]
  simp

theorem mkGrid_boxU {values : List Nat} {b : Nat} (h : b < 9) :
    (mkGrid values).boxUnsolved.getD b [] =
      (boxIdxs b).filter (fun j => decide (values.getD j 1 = 0)) := by
  show (((List.range 9).map
      (fun u => (boxIdxs u).filter (fun j => decide (values.getD j 1 = 0)))).getD b []) = _
  rw [List.getD_eq_getElem _ _ (by simpa using h)]
  simp

theorem mem_rowIdxs_self {i : Nat} (h : i < 81) : i ∈ rowIdxs (rowOf i) := by
  refine List.mem_map.mpr ⟨i % 9, List.mem_range.mpr (by omega), ?_⟩
  unfold rowOf
  omega

theorem mem_colIdxs_self {i : Nat} (h : i < 81) : i ∈ colIdxs (colOf i) := by
  refine List.mem_map.mpr ⟨i / 9, List.mem_range.mpr (by omega), ?_⟩
  unfold colOf
  omega

theorem mem_boxIdxs_self {i : Nat} (h : i < 81) : i ∈ boxIdxs (boxOf i) := by
  refine List.mem_map.mpr ⟨(i / 9 % 3) * 3 + (i % 9 % 3), List.mem_range.mpr (by omega), ?_⟩
  unfold boxOf
  omega

/-- A freshly built board is well-formed. -/
theorem WF_mkGrid {values : List Nat} (hlen : values.length = 81) : WF (mkGrid values) where
  len81 := by
    show (values.map mkSquare).length = 81
    simpa using hlen
  rlen := by
    show ((List.range 9).map _).length = 9
    simp
  clen := by
    show ((List.range 9).map _).length = 9
    simp
  blen := by
    show ((List.range 9).map _).length = 9
    simp
  candsub := by
    intro i
    by_cases hi : i < values.length
    · rw [candAt, getSq_mkGrid hi]
      exact mkSquare_cand_sub
    · have hoob : (mkGrid values).squares.length ≤ i := by
        show (values.map mkSquare).length ≤ i
        simp only [List.length_map]
        omega
      rw [candAt, getSq_oob hoob, default_square]
      exact List.nil_subset _
  unsNodup := by
    show ((List.range values.length).filter _).Nodup
    exact List.Nodup.filter _ (List.nodup_range _)
  unsMem := by
    intro i hi
    have hmem : i ∈ (List.range values.length).filter
        (fun i => decide (values.getD i 1 = 0)) := hi
    rcases List.mem_filter.mp hmem with ⟨hr, hv⟩
    have hilt : i < values.length := List.mem_range.mp hr
    have hv0 : values.getD i 1 = 0 := by simpa using hv
    refine ⟨by omega, ?_⟩
    rw [valAt, getSq_mkGrid hilt, hv0]
    rfl
  noneMem := by
    intro i h81 hnone
    have hilt : i < values.length := by omega
    have hv0 := mkGrid_value_zero hilt hnone
    show i ∈ (List.range values.length).filter _
    exact List.mem_filter.mpr ⟨List.mem_range.mpr hilt, by simpa using hv0⟩
  rowMem := by
    intro i h81 hnone
    have hilt : i < values.length := by omega
    have hv0 := mkGrid_value_zero hilt hnone
    rw [mkGrid_rowU (by unfold rowOf; omega)]
    exact List.mem_filter.mpr ⟨mem_rowIdxs_self h81, by simpa using hv0⟩
  colMem := by
    intro i h81 hnone
    have hilt : i < values.length := by omega
    have hv0 := mkGrid_value_zero hilt hnone
    rw [mkGrid_colU (by unfold colOf; omega)]
    exact List.mem_filter.mpr ⟨mem_colIdxs_self h81, by simpa using hv0⟩
  boxMem := by
    intro i h81 hnone
    have hilt : i < values.length := by omega
    have hv0 := mkGrid_value_zero hilt hnone
    rw [mkGrid_boxU (by unfold boxOf; omega)]
    exact List.mem_filter.mpr ⟨mem_boxIdxs_self h81, by simpa using hv0⟩

/-- An unsolved well-formed board has a non-empty unsolved list. -/
theorem WF.unsolved_ne_nil {g : Grid} (hwf : WF g) (h : is_solved g = false) :
    g.unsolvedSquares ≠ [] := by
  have hex : ∃ s ∈ g.squares, ¬ (decide (s.value ≠ none) = true) := by
    by_contra hc
    push_neg at hc
    have hsol : is_solved g = true := by
      unfold is_solved
      rw [List.all_eq_true]
      intro s hs
      exact hc s hs
    rw [hsol] at h
    cases h
  rcases hex with ⟨s, hs, hval⟩
  have hvn : s.value = none := by simpa using hval
  rcases List.mem_iff_getElem.mp hs with ⟨i, hi, hieq⟩
  have hvi : valAt g i = none := by
    rw [valAt, getSq, List.getD_eq_getElem _ _ hi, hieq]
    exact hvn
  have h81 : i < 81 := by
    have := hwf.len81
    omega
  exact List.ne_nil_of_mem (hwf.noneMem i h81 hvi)

/-! ### The single-candidate assignment pass (towards claim C7) -/

theorem removeSolved_cons {l0 : List Nat} {i : Nat} (sr : List Nat) (h : i ∈ l0) :
    removeSolved l0 (i :: sr) = removeSolved (l0.erase i) sr := by
  show (i :: sr).foldl _ (some l0) = _
  rw [List.foldl_cons]
  show sr.foldl _ (listRemove l0 i) = _
  rw [listRemove, if_pos h]
  rfl

/-- Removing a duplicate-free batch of members of a duplicate-free list
succeeds and keeps exactly the non-members. -/
theorem removeSolved_ok : ∀ (sr l0 : List Nat), l0.Nodup → sr.Nodup →
    (∀ i ∈ sr, i ∈ l0) →
    ∃ l, removeSolved l0 sr = some l ∧ l.Nodup ∧ ∀ j, (j ∈ l ↔ j ∈ l0 ∧ j ∉ sr)
  | [], l0, h0, _, _ => ⟨l0, rfl, h0, by simp⟩
  | i :: sr, l0, h0, hs, hmem => by
    have hi : i ∈ l0 := hmem i (List.mem_cons_self i sr)
    rw [removeSolved_cons sr hi]
    have hs' : sr.Nodup := (List.nodup_cons.mp hs).2
    have hinot : i ∉ sr := (List.nodup_cons.mp hs).1
    have hmem' : ∀ j ∈ sr, j ∈ l0.erase i := by
      intro j hj
      have hne : j ≠ i := fun he => hinot (he ▸ hj)
      exact (List.mem_erase_of_ne hne).mpr (hmem j (List.mem_cons_of_mem _ hj))
    rcases removeSolved_ok sr (l0.erase i) (h0.erase i) hs' hmem' with ⟨l, heq, hnd, hiff⟩
    refine ⟨l, heq, hnd, ?_⟩
    intro j
    rw [hiff j, h0.mem_erase_iff]
    simp only [List.mem_cons]
    tauto

theorem singlesStep_skip {gc : Grid} {i : Nat} (sr : List Nat)
    (h : ¬ (candAt gc i).length = 1) : singlesStep (gc, sr) i = .ok (gc, sr) := by
  have h' : ¬ ((getSq gc i).candidates.length = 1) := h
  simp only [singlesStep]
  rw [if_neg h']

theorem singlesStep_fire {gc : Grid} {i v : Nat} (sr : List Nat)
    (hcand : candAt gc i = [v]) (hvd : v ∈ digitsL)
    (hr : i ∈ gc.rowUnsolved.getD (rowOf i) [])
    (hc : i ∈ gc.colUnsolved.getD (colOf i) [])
    (hb : i ∈ gc.boxUnsolved.getD (boxOf i) []) :
    singlesStep (gc, sr) i =
      .ok (svGridOk (setSq gc i ⟨(getSq gc i).value, []⟩) i v, sr ++ [i]) := by
  have hcand' : (getSq gc i).candidates = [v] := hcand
  have hsv : set_value (setSq gc i ⟨(getSq gc i).value, []⟩) i v =
      (svGridOk (setSq gc i ⟨(getSq gc i).value, []⟩) i v, none) :=
    set_value_success hvd hr hc hb
  simp only [singlesStep]
  rw [hcand']
  rw [if_pos (show ([v] : List Nat).length = 1 by simp)]
  simp only [List.headD_cons, List.erase_cons_head]
  rw [hsv]
  rfl

theorem getD_set_self2 (l : List (List Nat)) (u : Nat) (a : List Nat) (h : u < l.length) :
    (l.set u a).getD u [] = a := getD_set_self l u a h

theorem getD_set_ne2 (l : List (List Nat)) (u w : Nat) (a : List Nat) (h : w ≠ u) :
    (l.set u a).getD w [] = l.getD w [] := getD_set_ne l u w a h

/-- Invariant carried through the solve-singles pass from the entry grid
`g1`: the grid keeps its shape, candidates stay digits, the board
unsolved list is untouched, the measure does not increase while the move
stack only grows, and the squares assigned so far (`sr`) are tracked
exactly. -/
structure PassInv (g1 gc : Grid) (sr : List Nat) : Prop where
  len81 : gc.squares.length = 81
  rlen : gc.rowUnsolved.length = 9
  clen : gc.colUnsolved.length = 9
  blen : gc.boxUnsolved.length = 9
  candsub : ∀ i, candAt gc i ⊆ digitsL
  uns : gc.unsolvedSquares = g1.unsolvedSquares
  meas : candTotal gc + mcount gc ≤ candTotal g1 + mcount g1
  mono : mcount g1 ≤ mcount gc
  srSub : ∀ i ∈ sr, i ∈ g1.unsolvedSquares
  srNodup : sr.Nodup
  srSome : ∀ i ∈ sr, valAt gc i ≠ none
  valEq : ∀ j, j ∉ sr → valAt gc j = valAt g1 j
  rowMem : ∀ j, j < 81 → valAt gc j = none → j ∈ gc.rowUnsolved.getD (rowOf j) []
  colMem : ∀ j, j < 81 → valAt gc j = none → j ∈ gc.colUnsolved.getD (colOf j) []
  boxMem : ∀ j, j < 81 → valAt gc j = none → j ∈ gc.boxUnsolved.getD (boxOf j) []

/-- One firing `singlesStep` preserves the pass invariant. -/
theorem PassInv.fire {g1 gc : Grid} {sr : List Nat} {i v : Nat}
    (hinv : PassInv g1 gc sr) (hwf : WF g1)
    (hiu : i ∈ g1.unsolvedSquares) (hins : i ∉ sr)
    (hcand : candAt gc i = [v]) :
    PassInv g1 (svGridOk (setSq gc i ⟨(getSq gc i).value, []⟩) i v) (sr ++ [i]) := by
  have h81 : i < 81 := (hwf.unsMem i hiu).1
  have hi81 : i < gc.squares.length := by
    rw [hinv.len81]
    exact h81
  have hpoplen : (setSq gc i (⟨(getSq gc i).value, []⟩ : Square)).squares.length =
      gc.squares.length := by simp [setSq]
  have hipop : i < (setSq gc i (⟨(getSq gc i).value, []⟩ : Square)).squares.length := by
    rw [hpoplen]
    exact hi81
  have hgetpop_self : getSq (setSq gc i (⟨(getSq gc i).value, []⟩ : Square)) i =
      ⟨(getSq gc i).value, []⟩ := getSq_setSq_self hi81
  have hcpop : candAt (setSq gc i (⟨(getSq gc i).value, []⟩ : Square)) i = [] := by
    rw [candAt, hgetpop_self]
  have hgetnew_self :
      getSq (svGridOk (setSq gc i (⟨(getSq gc i).value, []⟩ : Square)) i v) i =
        ⟨some v, candAt (setSq gc i (⟨(getSq gc i).value, []⟩ : Square)) i⟩ :=
    getSq_svGridOk_self hipop
  have hgetnew_ne : ∀ j, j ≠ i →
      getSq (svGridOk (setSq gc i (⟨(getSq gc i).value, []⟩ : Square)) i v) j = getSq gc j :=
    fun j hj => (getSq_svGridOk_ne hj).trans (getSq_setSq_ne hj)
  have hvnew_self :
      valAt (svGridOk (setSq gc i (⟨(getSq gc i).value, []⟩ : Square)) i v) i = some v := by
    rw [valAt, hgetnew_self]
  have hvnew_ne : ∀ j, j ≠ i →
      valAt (svGridOk (setSq gc i (⟨(getSq gc i).value, []⟩ : Square)) i v) j = valAt gc j := by
    intro j hj
    unfold valAt
    rw [hgetnew_ne j hj]
  have hcnew_self :
      candAt (svGridOk (setSq gc i (⟨(getSq gc i).value, []⟩ : Square)) i v) i = [] := by
    rw [candAt, hgetnew_self]
    exact hcpop
  have hcnew_ne : ∀ j, j ≠ i →
      candAt (svGridOk (setSq gc i (⟨(getSq gc i).value, []⟩ : Square)) i v) j = candAt gc j := by
    intro j hj
    unfold candAt
    rw [hgetnew_ne j hj]
  have hct1 := candTotal_setSq (g := gc) (i := i) (⟨(getSq gc i).value, []⟩ : Square) hi81
  have hct2 : candTotal (svGridOk (setSq gc i (⟨(getSq gc i).value, []⟩ : Square)) i v) =
      candTotal (setSq gc i (⟨(getSq gc i).value, []⟩ : Square)) := candTotal_svGridOk hipop
  have hmc : mcount (svGridOk (setSq gc i (⟨(getSq gc i).value, []⟩ : Square)) i v) =
      mcount gc + 1 := by
    simp [mcount, svGridOk, setSq]
  have h0 : (⟨(getSq gc i).value, []⟩ : Square).candidates.length = 0 := rfl
  have hlc : (candAt gc i).length = 1 := by rw [hcand]; rfl
  refine ⟨?_, ?_, ?_, ?_, ?_, ?_, ?_, ?_, ?_, ?_, ?_, ?_, ?_, ?_, ?_⟩
  · show ((setSq gc i (⟨(getSq gc i).value, []⟩ : Square)).squares.set i _).length = 81
    rw [List.length_set, hpoplen, hinv.len81]
  · show (gc.rowUnsolved.set (rowOf i) _).length = 9
    rw [List.length_set, hinv.rlen]
  · show (gc.colUnsolved.set (colOf i) _).length = 9
    rw [List.length_set, hinv.clen]
  · show (gc.boxUnsolved.set (boxOf i) _).length = 9
    rw [List.length_set, hinv.blen]
  · intro j
    by_cases hj : j = i
    · rw [hj, hcnew_self]
      exact List.nil_subset _
    · rw [hcnew_ne j hj]
      exact hinv.candsub j
  · exact hinv.uns
  · have := hinv.meas
    omega
  · have := hinv.mono
    omega
  · intro j hj
    rcases List.mem_append.mp hj with h1 | h1
    · exact hinv.srSub j h1
    · rw [List.mem_singleton] at h1
      rw [h1]
      exact hiu
  · rw [List.nodup_append]
    refine ⟨hinv.srNodup, by simp, ?_⟩
    intro a ha hb
    rw [List.mem_singleton] at hb
    exact hins (hb ▸ ha)
  · intro j hj
    rcases List.mem_append.mp hj with h1 | h1
    · have hne : j ≠ i := fun he => hins (he ▸ h1)
      rw [hvnew_ne j hne]
      exact hinv.srSome j h1
    · rw [List.mem_singleton] at h1
      rw [h1, hvnew_self]
      simp
  · intro j hjn
    have hj1 : j ∉ sr := fun h => hjn (List.mem_append.mpr (.inl h))
    have hne : j ≠ i := fun he => hjn (List.mem_append.mpr (.inr (by simp [he])))
    rw [hvnew_ne j hne]
    exact hinv.valEq j hj1
  · intro j hj81 hjn
    have hne : j ≠ i := by
      intro he
      rw [he, hvnew_self] at hjn
      cases hjn
    have hgcn : valAt gc j = none := by
      rw [← hvnew_ne j hne]
      exact hjn
    have hmem := hinv.rowMem j hj81 hgcn
    show j ∈ (gc.rowUnsolved.set (rowOf i)
        ((gc.rowUnsolved.getD (rowOf i) []).erase i)).getD (rowOf j) []
    by_cases hrow : rowOf j = rowOf i
    · rw [hrow, getD_set_self2 _ _ _ (by rw [hinv.rlen]; unfold rowOf; omega)]
      refine (List.mem_erase_of_ne hne).mpr ?_
      rw [← hrow]
      exact hmem
    · rw [getD_set_ne2 _ _ _ _ hrow]
      exact hmem
  · intro j hj81 hjn
    have hne : j ≠ i := by
      intro he
      rw [he, hvnew_self] at hjn
      cases hjn
    have hgcn : valAt gc j = none := by
      rw [← hvnew_ne j hne]
      exact hjn
    have hmem := hinv.colMem j hj81 hgcn
    show j ∈ (gc.colUnsolved.set (colOf i)
        ((gc.colUnsolved.getD (colOf i) []).erase i)).getD (colOf j) []
    by_cases hcol : colOf j = colOf i
    · rw [hcol, getD_set_self2 _ _ _ (by rw [hinv.clen]; unfold colOf; omega)]
      refine (List.mem_erase_of_ne hne).mpr ?_
      rw [← hcol]
      exact hmem
    · rw [getD_set_ne2 _ _ _ _ hcol]
      exact hmem
  · intro j hj81 hjn
    have hne : j ≠ i := by
      intro he
      rw [he, hvnew_self] at hjn
      cases hjn
    have hgcn : valAt gc j = none := by
      rw [← hvnew_ne j hne]
      exact hjn
    have hmem := hinv.boxMem j hj81 hgcn
    show j ∈ (gc.boxUnsolved.set (boxOf i)
        ((gc.boxUnsolved.getD (boxOf i) []).erase i)).getD (boxOf j) []
    by_cases hbox : boxOf j = boxOf i
    · rw [hbox, getD_set_self2 _ _ _ (by rw [hinv.blen]; unfold boxOf; omega)]
      refine (List.mem_erase_of_ne hne).mpr ?_
      rw [← hbox]
      exact hmem
    · rw [getD_set_ne2 _ _ _ _ hbox]
      exact hmem

/-- The solve-singles fold never raises and preserves the pass
invariant. -/
theorem singlesPass_go (g1 : Grid) (hwf : WF g1) :
    ∀ (l : List Nat) (gc : Grid) (sr : List Nat), l.Nodup →
      (∀ i ∈ l, i ∈ g1.unsolvedSquares ∧ i ∉ sr) →
      PassInv g1 gc sr →
      ∃ g2 sr2, foldE singlesStep (gc, sr) l = .ok (g2, sr2) ∧ PassInv g1 g2 sr2
  | [], gc, sr, _, _, hinv => ⟨gc, sr, rfl, hinv⟩
  | i :: l, gc, sr, hnd, hl, hinv => by
    rcases hl i (List.mem_cons_self i l) with ⟨hiu, hins⟩
    rcases List.nodup_cons.mp hnd with ⟨hil, hndl⟩
    have hl' : ∀ j ∈ l, j ∈ g1.unsolvedSquares ∧ j ∉ sr :=
      fun j hj => hl j (List.mem_cons_of_mem _ hj)
    by_cases hc : (candAt gc i).length = 1
    · rcases List.length_eq_one.mp hc with ⟨v, hv⟩
      have hvd : v ∈ digitsL := hinv.candsub i (by rw [hv]; exact List.mem_singleton_self v)
      have h81 := (hwf.unsMem i hiu).1
      have hnonei : valAt gc i = none := (hinv.valEq i hins).trans (hwf.unsMem i hiu).2
      have hr := hinv.rowMem i h81 hnonei
      have hcm := hinv.colMem i h81 hnonei
      have hbm := hinv.boxMem i h81 hnonei
      have hstep := singlesStep_fire sr hv hvd hr hcm hbm
      rw [foldE, hstep]
      have hinv2 := PassInv.fire hinv hwf hiu hins hv
      have hl2 : ∀ j ∈ l, j ∈ g1.unsolvedSquares ∧ j ∉ sr ++ [i] := by
        intro j hj
        rcases hl' j hj with ⟨hju, hjs⟩
        refine ⟨hju, ?_⟩
        intro hmem
        rcases List.mem_append.mp hmem with h1 | h1
        · exact hjs h1
        · rw [List.mem_singleton] at h1
          exact hil (h1 ▸ hj)
      exact singlesPass_go g1 hwf l _ _ hndl hl2 hinv2
    · have hstep := singlesStep_skip sr hc
      rw [foldE, hstep]
      exact singlesPass_go g1 hwf l gc sr hndl hl' hinv

/-- `Puzzle.solve`'s singles pass never raises on a well-formed grid. -/
theorem singlesPass_ok {g1 : Grid} (hwf : WF g1) :
    ∃ g2 sr, singlesPass g1 = .ok (g2, sr) ∧ PassInv g1 g2 sr := by
  have base : PassInv g1 g1 [] :=
    ⟨hwf.len81, hwf.rlen, hwf.clen, hwf.blen, hwf.candsub, rfl, Nat.le_refl _, Nat.le_refl _,
     by simp, List.nodup_nil, by simp, fun j _ => rfl, hwf.rowMem, hwf.colMem, hwf.boxMem⟩
  rcases singlesPass_go g1 hwf g1.unsolvedSquares g1 [] hwf.unsNodup
      (fun i hi => ⟨hi, by simp⟩) base with ⟨g2, sr, heq, hinv⟩
  exact ⟨g2, sr, heq, hinv⟩

theorem exElim_ok {ε α β : Type} (a : α) (f : ε → β) (h : α → β) :
    exElim (.ok a) f h = h a := rfl

theorem exElim_err {ε α β : Type} (e : ε) (f : ε → β) (h : α → β) :
    exElim (.error e) f h = f e := rfl

theorem opElim_some {α β : Type} (a : α) (b : β) (f : α → β) :
    (some a).elim b f = f a := rfl

section SolveIrred

attribute [local irreducible] updateMarks singlesPass removeSolved is_solved is_valid

/-- The solver loop with enough fuel (one cycle per remaining candidate
plus one) reaches one of the three terminal states of the spec: it
never exhausts the fuel and never escapes with an exception. -/
theorem solveLoop_term : ∀ (fuel : Nat) (g : Grid), WF g → candTotal g < fuel →
    (solveLoop fuel g (mcount g)).2 = Outcome.solved ∨
    (solveLoop fuel g (mcount g)).2 = Outcome.stuck ∨
    (solveLoop fuel g (mcount g)).2 = Outcome.invalid := by
  intro fuel
  induction fuel with
  | zero =>
    intro g _ hf
    omega
  | succ fuel ih =>
    intro g hwf hf
    by_cases hsolved : is_solved g = true
    · left
      simp only [solveLoop]
      rw [if_pos hsolved]
    · have hsf : is_solved g = false := by
        cases h : is_solved g
        · rfl
        · exact absurd h hsolved
      have hne := hwf.unsolved_ne_nil hsf
      rcases updateMarks_ok g hne with ⟨g1, heq1, hsrel⟩
      have hwf1 : WF g1 := hwf.preserved hsrel
      rcases singlesPass_ok hwf1 with ⟨g2, sr, heq2, hpi⟩
      have hl0nd : g2.unsolvedSquares.Nodup := by
        rw [hpi.uns]
        exact hwf1.unsNodup
      have hsrsub : ∀ i ∈ sr, i ∈ g2.unsolvedSquares := by
        intro i hi
        rw [hpi.uns]
        exact hpi.srSub i hi
      rcases removeSolved_ok sr g2.unsolvedSquares hl0nd hpi.srNodup hsrsub with
        ⟨l, heq3, hlnd, hliff⟩
      have hwf3 : WF (Grid.mk g2.squares l g2.rowUnsolved g2.colUnsolved g2.boxUnsolved
          g2.moveStack) := by
        refine ⟨hpi.len81, hpi.rlen, hpi.clen, hpi.blen, hpi.candsub, hlnd, ?_, ?_,
          hpi.rowMem, hpi.colMem, hpi.boxMem⟩
        · intro i hi
          have hi2 := (hliff i).mp hi
          have hiu1 : i ∈ g1.unsolvedSquares := by
            rw [← hpi.uns]
            exact hi2.1
          refine ⟨(hwf1.unsMem i hiu1).1, ?_⟩
          show valAt g2 i = none
          rw [hpi.valEq i hi2.2]
          exact (hwf1.unsMem i hiu1).2
        · intro i h81 hnone
          have hnone2 : valAt g2 i = none := hnone
          have hnsr : i ∉ sr := fun hs => hpi.srSome i hs hnone2
          have hnone1 : valAt g1 i = none := by
            rw [← hpi.valEq i hnsr]
            exact hnone2
          have hmem1 := hwf1.noneMem i h81 hnone1
          show i ∈ l
          refine (hliff i).mpr ⟨?_, hnsr⟩
          rw [hpi.uns]
          exact hmem1
      have hct3 : candTotal (Grid.mk g2.squares l g2.rowUnsolved g2.colUnsolved g2.boxUnsolved
          g2.moveStack) = candTotal g2 := rfl
      have hmc3 : mcount (Grid.mk g2.squares l g2.rowUnsolved g2.colUnsolved g2.boxUnsolved
          g2.moveStack) = mcount g2 := rfl
      have hme1 := hsrel.meas
      have hmo1 := hsrel.mono
      have hme2 := hpi.meas
      have hmo2 := hpi.mono
      simp only [solveLoop]
      rw [if_neg hsolved]
      simp only [heq1, exElim_ok, heq2, heq3, opElim_some]
      by_cases hstuck : mcount (Grid.mk g2.squares l g2.rowUnsolved g2.colUnsolved
          g2.boxUnsolved g2.moveStack) = mcount g
      · rw [if_pos hstuck]
        right
        left
        rfl
      · rw [if_neg hstuck]
        by_cases hval : is_valid (Grid.mk g2.squares l g2.rowUnsolved g2.colUnsolved
            g2.boxUnsolved g2.moveStack) = false
        · rw [if_pos hval]
          right
          right
          rfl
        · rw [if_neg hval]
          exact ih _ hwf3 (by omega)

/-- `Puzzle.solve` with fuel `candTotal + 1` reaches Solved, Stuck or
Invalid. -/
theorem solvePuzzle_term (g : Grid) (hwf : WF g) (fuel : Nat) (hf : candTotal g < fuel) :
    (solvePuzzle g fuel).2 = Outcome.solved ∨
    (solvePuzzle g fuel).2 = Outcome.stuck ∨
    (solvePuzzle g fuel).2 = Outcome.invalid := by
  unfold solvePuzzle
  by_cases hval : is_valid g = false
  · rw [if_pos hval]
    right
    right
    rfl
  · rw [if_neg hval]
    exact solveLoop_term fuel g hwf hf

end SolveIrred

instance exceptDecEq {e a : Type} [DecidableEq e] [DecidableEq a] : DecidableEq (Except e a) :=
  fun x y =>
    match x, y with
    | .error u, .error w =>
      if h : u = w then isTrue (by rw [h]) else isFalse (by intro hc; cases hc; exact h rfl)
    | .ok u, .ok w =>
      if h : u = w then isTrue (by rw [h]) else isFalse (by intro hc; cases hc; exact h rfl)
    | .error _, .ok _ => isFalse (by intro hc; cases hc)
    | .ok _, .error _ => isFalse (by intro hc; cases hc)

/-- A complete valid solution grid (the solution of the sample puzzle of
the spec), used to build small concrete boards. -/
def solVals : List Nat :=
  [8,3,1,2,9,6,7,5,4,
   6,2,5,7,4,8,3,9,1,
   9,7,4,5,3,1,6,8,2,
   3,4,7,1,2,9,8,6,5,
   1,6,2,8,5,7,9,4,3,
   5,8,9,4,6,3,1,2,7,
   2,9,8,3,7,4,5,1,6,
   7,5,6,9,1,2,4,3,8,
   4,1,3,6,8,5,2,7,9]

/-- A solver state on which a full cycle performs no move: `solVals`
with the deadly rectangle 0/5/9/14 (values 8,6,6,8) blanked and the
pencil marks already reduced to `{6, 8}` in each blank square.  No
implemented technique fires on it. -/
def gStuck : Grid :=
  Grid.mk
    ((List.range 81).map (fun i =>
      if i = 0 ∨ i = 5 ∨ i = 9 ∨ i = 14 then ⟨none, [6, 8]⟩
      else ⟨some (solVals.getD i 0), []⟩))
    [0, 5, 9, 14]
    [[0, 5], [9, 14], [], [], [], [], [], [], []]
    [[0, 9], [], [], [], [], [5, 14], [], [], []]
    [[0, 9], [5, 14], [], [], [], [], [], [], []]
    []

/-- Claim C7 (confirmed): for every freshly built board the solver loop
with fuel exceeding the total candidate count reaches exactly one of
the terminal states Solved, Stuck or Invalid -- it never exhausts the
fuel bound and no exception escapes, because every cycle that continues
appends at least one move-log entry while the combined measure
(candidates + moves) never increases; and a cycle that produces zero
log entries (`current_moves == len(self.move_stack)`) halts the loop in
the Stuck state, returning the cycle's end grid. -/
theorem c7_thm :
    (∀ (values : List Nat) (fuel : Nat), values.length = 81 →
       candTotal (mkGrid values) < fuel →
       (solvePuzzle (mkGrid values) fuel).2 = Outcome.solved ∨
       (solvePuzzle (mkGrid values) fuel).2 = Outcome.stuck ∨
       (solvePuzzle (mkGrid values) fuel).2 = Outcome.invalid) ∧
    (∀ (fuel : Nat) (g g1 g2 : Grid) (sr l : List Nat),
       is_solved g = false →
       updateMarks g = .ok g1 →
       singlesPass g1 = .ok (g2, sr) →
       removeSolved g2.unsolvedSquares sr = some l →
       mcount g2 = mcount g →
       solveLoop (fuel + 1) g (mcount g) =
         (Grid.mk g2.squares l g2.rowUnsolved g2.colUnsolved g2.boxUnsolved g2.moveStack,
          Outcome.stuck)) := by
  constructor
  · intro values fuel hlen hf
    exact solvePuzzle_term _ (WF_mkGrid hlen) fuel hf
  · intro fuel g g1 g2 sr l hsf heq1 heq2 heq3 hstuck
    have hsolved : ¬ is_solved g = true := by
      rw [hsf]
      simp
    have hstuck2 : mcount (Grid.mk g2.squares l g2.rowUnsolved g2.colUnsolved g2.boxUnsolved
        g2.moveStack) = mcount g := hstuck
    simp only [solveLoop]
    rw [if_neg hsolved]
    simp only [heq1, exElim_ok, heq2, heq3, opElim_some]
    rw [if_pos hstuck2]

theorem c7_witness :
    (solVals.length = 81 ∧ candTotal (mkGrid solVals) < 1 ∧
      ((solvePuzzle (mkGrid solVals) 1).2 = Outcome.solved ∨
       (solvePuzzle (mkGrid solVals) 1).2 = Outcome.stuck ∨
       (solvePuzzle (mkGrid solVals) 1).2 = Outcome.invalid)) ∧
    (is_solved gStuck = false ∧ updateMarks gStuck = .ok gStuck ∧
      singlesPass gStuck = .ok (gStuck, []) ∧
      removeSolved gStuck.unsolvedSquares [] = some [0, 5, 9, 14] ∧
      solveLoop 1 gStuck (mcount gStuck) =
        (Grid.mk gStuck.squares [0, 5, 9, 14] gStuck.rowUnsolved gStuck.colUnsolved
          gStuck.boxUnsolved gStuck.moveStack, Outcome.stuck)) :=
  ⟨⟨by decide, by decide,
     c7_thm.1 solVals 1 (by decide) (by decide)⟩,
   ⟨by decide, by decide, by decide, by decide,
     c7_thm.2 0 gStuck gStuck gStuck [] [0, 5, 9, 14] (by decide) (by decide) (by decide)
       (by decide) rfl⟩⟩

/-! ### Claim C9: duplicate givens in a row -/

theorem single_sublist_range {p : Nat} : ∀ {n : Nat}, p < n → List.Sublist [p] (List.range n) := by
  intro n
  induction n with
  | zero => omega
  | succ n ih =>
    intro h
    rw [List.range_succ]
    by_cases hp : p < n
    · exact (ih hp).trans (List.sublist_append_left _ _)
    · have hpe : p = n := by omega
      subst hpe
      exact List.sublist_append_right _ _

theorem pair_sublist_range {p q : Nat} (hpq : p < q) : ∀ {n : Nat}, q < n →
    List.Sublist [p, q] (List.range n) := by
  intro n
  induction n with
  | zero => omega
  | succ n ih =>
    intro h
    rw [List.range_succ]
    by_cases hqn : q < n
    · exact (ih hqn).trans (List.sublist_append_left _ _)
    · have hqe : q = n := by omega
      subst hqe
      exact List.Sublist.append (single_sublist_range hpq) (List.Sublist.refl _)

/-- Two equal solved values at distinct positions of a row make the
whole board fail its validity check. -/
theorem row_dup_invalid {g : Grid} {r p q d : Nat} (hr : r < 9) (hpq : p < q) (hq : q < 9)
    (hvp : valAt g (9 * r + p) = some d) (hvq : valAt g (9 * r + q) = some d) :
    is_valid g = false := by
  have hsub : List.Sublist [some d, some d] ((rowIdxs r).map (fun i => valAt g i)) := by
    have h1 : List.Sublist [p, q] (List.range 9) := pair_sublist_range hpq hq
    have h2 := h1.map (fun c => valAt g (9 * r + c))
    rw [List.map_cons, List.map_cons, List.map_nil, hvp, hvq] at h2
    have h3 : (rowIdxs r).map (fun i => valAt g i) =
        (List.range 9).map (fun c => valAt g (9 * r + c)) := by
      rw [rowIdxs, List.map_map]
      rfl
    rw [h3]
    exact h2
  have hff : ([some d, some d] : List (Option Nat)).filter (fun o => decide (o ≠ none)) =
      [some d, some d] := by simp
  have hsubf : List.Sublist [some d, some d] (unitSolvedVals g .row r) := by
    show List.Sublist ([some d, some d] : List (Option Nat))
      (((rowIdxs r).map (fun i => valAt g i)).filter (fun o => decide (o ≠ none)))
    rw [← hff]
    exact hsub.filter _
  have hnotnodup : ¬ (unitSolvedVals g .row r).Nodup := by
    intro hnd
    have h2 := List.Nodup.sublist hsubf hnd
    simp at h2
  have huv : unit_is_valid g .row r = false := by
    have h2 : decide (unitSolvedVals g .row r).Nodup = false := decide_eq_false hnotnodup
    unfold unit_is_valid
    rw [h2, Bool.and_false]
  by_contra hvf
  have hvt : is_valid g = true := by
    cases h : is_valid g
    · exact absurd h hvf
    · rfl
  unfold is_valid at hvt
  have hall := List.all_eq_true.mp hvt
  have hmem : (UnitKind.row, r) ∈ allUnits := by
    unfold allUnits
    refine List.mem_append.mpr (.inl (List.mem_append.mpr (.inl ?_)))
    exact List.mem_map.mpr ⟨r, List.mem_range.mpr hr, rfl⟩
  have hru := hall _ hmem
  have hru2 : unit_is_valid g .row r = true := hru
  rw [huv] at hru2
  cases hru2

/-- Claim C9 (confirmed): a puzzle built with two identical given digits
in one row fails the validity check, and `solve` halts immediately in
the Invalid terminal state, before any deduction, with the move log
still empty. -/
theorem c9_thm (values : List Nat) (fuel : Nat) (r p q d : Nat)
    (hlen : values.length = 81) (hr : r < 9) (hpq : p < q) (hq : q < 9)
    (hd : d ≠ 0)
    (hvp : values.getD (9 * r + p) 0 = d) (hvq : values.getD (9 * r + q) 0 = d) :
    is_valid (mkGrid values) = false ∧
    solvePuzzle (mkGrid values) fuel = (mkGrid values, Outcome.invalid) ∧
    (solvePuzzle (mkGrid values) fuel).1.moveStack = [] := by
  have hi1 : 9 * r + p < values.length := by omega
  have hi2 : 9 * r + q < values.length := by omega
  have hv1 : valAt (mkGrid values) (9 * r + p) = some d := by
    rw [valAt, getSq_mkGrid hi1]
    have he : values.getD (9 * r + p) 1 = d := by
      rw [List.getD_eq_getElem _ _ hi1]
      rw [List.getD_eq_getElem _ _ hi1] at hvp
      exact hvp
    rw [he]
    unfold mkSquare
    rw [if_neg hd]
  have hv2 : valAt (mkGrid values) (9 * r + q) = some d := by
    rw [valAt, getSq_mkGrid hi2]
    have he : values.getD (9 * r + q) 1 = d := by
      rw [List.getD_eq_getElem _ _ hi2]
      rw [List.getD_eq_getElem _ _ hi2] at hvq
      exact hvq
    rw [he]
    unfold mkSquare
    rw [if_neg hd]
  have hinv := row_dup_invalid hr hpq hq hv1 hv2
  refine ⟨hinv, ?_, ?_⟩
  · unfold solvePuzzle
    rw [if_pos hinv]
  · unfold solvePuzzle
    rw [if_pos hinv]
    rfl

/-- A puzzle whose only givens are two 3s in row 0. -/
def c9vals : List Nat := [3, 3] ++ (List.range 79).map (fun _ => 0)

theorem c9_witness :
    (c9vals.length = 81 ∧ (0 : Nat) < 9 ∧ (0 : Nat) < 1 ∧ (1 : Nat) < 9 ∧ (3 : Nat) ≠ 0 ∧
      c9vals.getD 0 0 = 3 ∧ c9vals.getD 1 0 = 3) ∧
    (is_valid (mkGrid c9vals) = false ∧
     solvePuzzle (mkGrid c9vals) 5 = (mkGrid c9vals, Outcome.invalid) ∧
     (solvePuzzle (mkGrid c9vals) 5).1.moveStack = []) :=
  ⟨⟨by decide, by decide, by decide, by decide, by decide, by decide, by decide⟩,
   c9_thm c9vals 5 0 0 1 3 (by decide) (by decide) (by decide) (by decide) (by decide)
     (by decide) (by decide)⟩

/-! ### Claim C1: stage ordering and early exit -/

/-- `solVals` with squares 0, 1 and 27 blanked: simple pruning fires on
it (23 candidate removals) and afterwards a hidden single also fires in
the same `update_notation` call. -/
def c1g : Grid := mkGrid (((solVals.set 0 0).set 1 0).set 27 0)

/-- The state and change flag after the pruning + hidden-singles block
of `update_notation` (identity dummy on an escaped exception). -/
def hsAfterSingles (g : Grid) : Grid × Bool :=
  exElim (hiddenSinglesStage (pruneStage g).1 (pruneStage g).2) (fun _ => (g, false)) id

/-- The move count after a full `update_notation` call (0 on an escaped
exception). -/
def marksMoves (g : Grid) : Nat := exElim (updateMarks g) (fun _ => 0) (fun g1 => mcount g1)

/-- Counterexample to claim C1: on `c1g` simple pruning reports a change
(its flag is true), yet the cycle does NOT end there: `update_notation`
returns a grid with strictly more moves than pruning alone appended
(the hidden-singles stage still ran and fired), so a stage's change does
not end the cycle before the next stage of the same block. -/
theorem c1_cex :
    (pruneStage c1g).2 = true ∧
    updateMarks c1g ≠ .ok (pruneStage c1g).1 ∧
    mcount (pruneStage c1g).1 < marksMoves c1g := by decide

section C1Irred

attribute [local irreducible] interPass stageFold stageFoldE pruneStage
attribute [local irreducible] hiddenSinglesStage find_x_wings interLoop candTotal
attribute [local irreducible] pairsTriplesBlock quadsBlock

/-- Claim C1 (corrected): the cycle's stages run in the fixed order
pruning, hidden singles, intersection removal, naked/hidden pairs,
naked/hidden triples, naked/hidden quadruples, X-Wings, but the early
exit happens only at BLOCK boundaries: simple pruning and hidden
singles always run together before the first exit check (a pruning
change does not stop hidden singles), and the four pairs/triples stages
always run together before their exit check (a pairs change does not
stop the triples stages); the exit then returns the grid mutated by the
whole block. -/
theorem c1_thm (g : Grid) (hs : Grid × Bool)
    (hhs : hiddenSinglesStage (pruneStage g).1 (pruneStage g).2 = .ok hs) :
    (hs.2 = true → updateMarks g = .ok hs.1) ∧
    (hs.2 = false →
      ∀ pt : Grid × Bool,
        (interLoop (candTotal hs.1 + 1) hs.1 false).2 = false →
        pairsTriplesBlock (interLoop (candTotal hs.1 + 1) hs.1 false).1 = .ok pt →
        pt.2 = true → updateMarks g = .ok pt.1) := by
  have hbody : updateMarks g =
      (if hs.2 then Except.ok hs.1
       else
         if (interLoop (candTotal hs.1 + 1) hs.1 false).2 then
           Except.ok (interLoop (candTotal hs.1 + 1) hs.1 false).1
         else
           (pairsTriplesBlock (interLoop (candTotal hs.1 + 1) hs.1 false).1).bind (fun pt =>
             if pt.2 then Except.ok pt.1
             else
               (quadsBlock pt.1).bind (fun qb =>
                 if qb.2 then Except.ok qb.1
                 else (find_x_wings qb.1).map (fun xw => xw.1)))) := by
    show (hiddenSinglesStage (pruneStage g).1 (pruneStage g).2).bind _ = _
    rw [hhs]
    exact exbind_ok hs _
  constructor
  · intro h2
    rw [hbody, if_pos h2]
  · intro h2 pt hil hpt hpt2
    rw [hbody, if_neg (by rw [h2]; simp : ¬ hs.2 = true),
      if_neg (by rw [hil]; simp : ¬ (interLoop (candTotal hs.1 + 1) hs.1 false).2 = true),
      hpt, exbind_ok, if_pos hpt2]

end C1Irred

theorem c1_witness :
    (hiddenSinglesStage (pruneStage c1g).1 (pruneStage c1g).2 = .ok (hsAfterSingles c1g) ∧
     (hsAfterSingles c1g).2 = true) ∧
    updateMarks c1g = .ok (hsAfterSingles c1g).1 :=
  ⟨⟨by decide, by decide⟩,
   (c1_thm c1g (hsAfterSingles c1g) (by decide)).1 (by decide)⟩

/-! ### Claim C6: the X-Wing guard -/

theorem getD_colIdxs {c z : Nat} (h : z < 9) : (colIdxs c).getD z 0 = 9 * z + c := by
  unfold colIdxs
  rw [List.getD_eq_getElem _ _ (by simpa using h)]
  simp

/-- The removal part of one firing X-Wing pair `(j, k)`: the digit is
removed from the cells of the cross-lines indexed by `un`, skipping the
cells lying in lines `j` and `k`. -/
def xwApply (g : Grid) (d : Nat) (cross : Nat → List Nat) (j k : Nat) (un : List Nat) :
    Grid × Bool :=
  un.foldl (fun a c =>
    (List.range 9).foldl (fun a2 z =>
      if z = j ∨ z = k then a2
      else
        let r := remove_candidate a2.1 ((cross c).getD z 0) d
        (r.1, a2.2 || r.2)) a) (g, false)

/-- One step of the `__find_x_wing` scan over ascending line pairs. -/
def xwStep (g0 : Grid) (d : Nat) (lines cross : Nat → List Nat)
    (acc : Grid × Bool) (jk : Nat × Nat) : Grid × Bool :=
  if acc.2 then acc
  else if (unionS (xwPos g0 lines d jk.1) (xwPos g0 lines d jk.2)).length = 2 then
    xwApply acc.1 d cross jk.1 jk.2 (unionS (xwPos g0 lines d jk.1) (xwPos g0 lines d jk.2))
  else acc

theorem find_x_wing_eq_fold (g : Grid) (d : Nat) (lines cross : Nat → List Nat) :
    find_x_wing g d lines cross =
      (pairsOf ((List.range 9).filter (fun j => decide (xwPos g lines d j ≠ [])))).foldl
        (xwStep g d lines cross) (g, false) := rfl

theorem xwApply_false {g : Grid} {d : Nat} {cross : Nat → List Nat} {j k : Nat}
    {un : List Nat} (h : (xwApply g d cross j k un).2 = false) :
    (xwApply g d cross j k un).1 = g := by
  have hinv : (xwApply g d cross j k un).2 = false → (xwApply g d cross j k un).1 = g := by
    apply foldl_inv (P := fun (a : Grid × Bool) => a.2 = false → a.1 = g) _ _ _ ?_
      (fun _ => rfl)
    intro a c _ ha
    apply foldl_inv (P := fun (a2 : Grid × Bool) => a2.2 = false → a2.1 = g) _ _ _ ?_ ha
    intro a2 z _ ha2
    by_cases hzjk : z = j ∨ z = k
    · rw [if_pos hzjk]
      exact ha2
    · rw [if_neg hzjk]
      intro hflag
      have hor : a2.2 = false ∧ (remove_candidate a2.1 ((cross c).getD z 0) d).2 = false := by
        have : (a2.2 || (remove_candidate a2.1 ((cross c).getD z 0) d).2) = false := hflag
        exact Bool.or_eq_false_iff.mp this
      show (remove_candidate a2.1 ((cross c).getD z 0) d).1 = g
      rw [remove_candidate_false hor.2]
      exact ha2 hor.1
  exact hinv h

/-- The removal step of a firing pair in the row orientation never
touches the squares of the two scanned rows. -/
theorem xwApply_getSq_row {g : Grid} {d j k i : Nat} {un : List Nat}
    (hun : ∀ c ∈ un, c < 9) (hrow : rowOf i = j ∨ rowOf i = k) :
    getSq (xwApply g d colIdxs j k un).1 i = getSq g i := by
  apply foldl_inv (P := fun (a : Grid × Bool) => getSq a.1 i = getSq g i) _ _ _ ?_ rfl
  intro a c hc ha
  apply foldl_inv (P := fun (a2 : Grid × Bool) => getSq a2.1 i = getSq g i) _ _ _ ?_ ha
  intro a2 z hz ha2
  by_cases hzjk : z = j ∨ z = k
  · rw [if_pos hzjk]
    exact ha2
  · rw [if_neg hzjk]
    have hz9 : z < 9 := List.mem_range.mp hz
    have hc9 : c < 9 := hun c hc
    have hne : i ≠ (colIdxs c).getD z 0 := by
      rw [getD_colIdxs hz9]
      intro he
      have hri : rowOf i = z := by
        unfold rowOf
        omega
      push_neg at hzjk
      rcases hrow with h | h
      · exact hzjk.1 (by omega)
      · exact hzjk.2 (by omega)
    show getSq (remove_candidate a2.1 ((colIdxs c).getD z 0) d).1 i = getSq g i
    rw [remove_candidate_getSq_ne hne]
    exact ha2

theorem xwStep_cases (g0 : Grid) (d : Nat) (lines cross : Nat → List Nat)
    (acc : Grid × Bool) (jk : Nat × Nat) :
    (acc.2 = true ∧ xwStep g0 d lines cross acc jk = acc) ∨
    (acc.2 = false ∧ (unionS (xwPos g0 lines d jk.1) (xwPos g0 lines d jk.2)).length = 2 ∧
      xwStep g0 d lines cross acc jk =
        xwApply acc.1 d cross jk.1 jk.2
          (unionS (xwPos g0 lines d jk.1) (xwPos g0 lines d jk.2))) ∨
    (acc.2 = false ∧
      ¬ (unionS (xwPos g0 lines d jk.1) (xwPos g0 lines d jk.2)).length = 2 ∧
      xwStep g0 d lines cross acc jk = acc) := by
  by_cases hacc : acc.2 = true
  · left
    refine ⟨hacc, ?_⟩
    unfold xwStep
    rw [if_pos hacc]
  · have hf : acc.2 = false := by
      cases h : acc.2
      · rfl
      · exact absurd h hacc
    by_cases hlen : (unionS (xwPos g0 lines d jk.1) (xwPos g0 lines d jk.2)).length = 2
    · right
      left
      refine ⟨hf, hlen, ?_⟩
      unfold xwStep
      rw [if_neg hacc, if_pos hlen]
    · right
      right
      refine ⟨hf, hlen, ?_⟩
      unfold xwStep
      rw [if_neg hacc, if_neg hlen]

/-- Analysis of the pair scan: while nothing fired the grid is the entry
grid, and once the result flag is set the result is the removal step of
some scanned pair whose two position sets have a 2-element union. -/
theorem xw_fold_first (g0 : Grid) (d : Nat) (lines cross : Nat → List Nat) :
    ∀ (ps : List (Nat × Nat)) (acc : Grid × Bool),
      (∀ jk ∈ ps, jk ∈ pairsOf ((List.range 9).filter
          (fun j => decide (xwPos g0 lines d j ≠ [])))) →
      ((acc.2 = false → acc.1 = g0) →
      (acc.2 = true → ∃ j k,
        (j, k) ∈ pairsOf ((List.range 9).filter (fun j => decide (xwPos g0 lines d j ≠ []))) ∧
        (unionS (xwPos g0 lines d j) (xwPos g0 lines d k)).length = 2 ∧
        acc = xwApply g0 d cross j k (unionS (xwPos g0 lines d j) (xwPos g0 lines d k))) →
      (((ps.foldl (xwStep g0 d lines cross) acc).2 = false →
          (ps.foldl (xwStep g0 d lines cross) acc).1 = g0) ∧
       ((ps.foldl (xwStep g0 d lines cross) acc).2 = true → ∃ j k,
        (j, k) ∈ pairsOf ((List.range 9).filter (fun j => decide (xwPos g0 lines d j ≠ []))) ∧
        (unionS (xwPos g0 lines d j) (xwPos g0 lines d k)).length = 2 ∧
        ps.foldl (xwStep g0 d lines cross) acc =
          xwApply g0 d cross j k (unionS (xwPos g0 lines d j) (xwPos g0 lines d k)))))
  | [], acc, _, h1, h2 => ⟨h1, h2⟩
  | jk :: ps, acc, hps, h1, h2 => by
    rw [List.foldl_cons]
    refine xw_fold_first g0 d lines cross ps (xwStep g0 d lines cross acc jk)
      (fun x hx => hps x (List.mem_cons_of_mem _ hx)) ?_ ?_
    · intro hflag
      rcases xwStep_cases g0 d lines cross acc jk with ⟨hta, he⟩ | ⟨hfa, hlen, he⟩ |
        ⟨hfa, hlen, he⟩
      · rw [he] at hflag ⊢
        exact h1 hflag
      · rw [he, h1 hfa] at hflag ⊢
        exact xwApply_false hflag
      · rw [he] at hflag ⊢
        exact h1 hflag
    · intro hflag
      rcases xwStep_cases g0 d lines cross acc jk with ⟨hta, he⟩ | ⟨hfa, hlen, he⟩ |
        ⟨hfa, hlen, he⟩
      · rw [he] at hflag ⊢
        exact h2 hflag
      · rw [he, h1 hfa]
        refine ⟨jk.1, jk.2, ?_, hlen, rfl⟩
        exact hps jk (List.mem_cons_self _ _)
      · rw [he] at hflag ⊢
        exact h2 hflag

/-- A `__find_x_wing` call that reports a change is the removal step of
some scanned pair with a 2-element union of position sets. -/
theorem find_x_wing_fired (g : Grid) (d : Nat) (lines cross : Nat → List Nat)
    (hchanged : (find_x_wing g d lines cross).2 = true) :
    ∃ j k,
      (j, k) ∈ pairsOf ((List.range 9).filter (fun j => decide (xwPos g lines d j ≠ []))) ∧
      (unionS (xwPos g lines d j) (xwPos g lines d k)).length = 2 ∧
      find_x_wing g d lines cross =
        xwApply g d cross j k (unionS (xwPos g lines d j) (xwPos g lines d k)) := by
  have h := xw_fold_first g d lines cross
      (pairsOf ((List.range 9).filter (fun j => decide (xwPos g lines d j ≠ [])))) (g, false)
      (fun x hx => hx) (fun _ => rfl) (fun hc => absurd hc (by simp))
  rw [find_x_wing_eq_fold] at hchanged ⊢
  exact h.2 hchanged

/-- A duplicate-free list with at least 2 elements, contained in a list
of length 2, has exactly 2 elements and the same members. -/
theorem subset_two_eq {a un : List Nat} (hnd : a.Nodup) (h2 : 2 ≤ a.length)
    (hsub : ∀ x ∈ a, x ∈ un) (hunlen : un.length = 2) :
    a.length = 2 ∧ ∀ x, x ∈ a ↔ x ∈ un := by
  have hfin_sub : a.toFinset ⊆ un.toFinset := by
    intro x hx
    exact List.mem_toFinset.mpr (hsub x (List.mem_toFinset.mp hx))
  have hca : a.toFinset.card = a.length := List.toFinset_card_of_nodup hnd
  have hcle := List.toFinset_card_le un
  have hmono := Finset.card_le_card hfin_sub
  have hle : un.toFinset.card ≤ a.toFinset.card := by omega
  have heq := Finset.eq_of_subset_of_card_le hfin_sub hle
  refine ⟨by omega, ?_⟩
  intro x
  rw [← List.mem_toFinset, ← List.mem_toFinset (l := un), heq]

/-- `solVals` with squares 0 (row 0, column 0), 13 (row 1, column 4) and
18 (row 2, column 0) blanked.  For digit 1, the row position sets are
`[0]`, `[4]`, `[0]` for rows 0, 1, 2: no two rows have 2 candidate
positions each, let alone identical position sets. -/
def c6g : Grid := mkGrid (((solVals.set 0 0).set 13 0).set 18 0)

/-- `solVals` with the six squares of rows 0, 1, 5 at columns 0 and 4
blanked: every row position set of digit 1 is `[0, 4]` or empty. -/
def c6w : Grid := mkGrid ((((((solVals.set 0 0).set 4 0).set 9 0).set 13 0).set 45 0).set 49 0)

/-- Counterexample to claim C6: on `c6g` the X-Wing scan for digit 1 in
the row orientation reports a change and removes the digit from square
18 -- a cross-line (column 0) cell outside the two scanned rows -- even
though NO two rows have the claimed guard (each exactly 2 candidate
positions and identical position sets): the code only checks that the
UNION of the two position sets has 2 elements. -/
theorem c6_cex :
    (find_x_wing c6g 1 rowIdxs colIdxs).2 = true ∧
    candAt (find_x_wing c6g 1 rowIdxs colIdxs).1 18 ≠ candAt c6g 18 ∧
    (∀ j ∈ List.range 9, ∀ k ∈ List.range 9, j < k →
      ¬((xwPos c6g rowIdxs 1 j).length = 2 ∧ (xwPos c6g rowIdxs 1 k).length = 2 ∧
        xwPos c6g rowIdxs 1 j = xwPos c6g rowIdxs 1 k)) := by
  decide

/-- Claim C6 (corrected): the code guards a firing pair only by
`len(union of the two position sets) == 2`, which is weaker than the
claimed per-line guard; the claimed behaviour holds exactly when no
scanned line holds the digit in a single position.  Under that
precondition, a change implies some ascending row pair `j < k` in which
the digit occupies exactly 2 positions of each row with identical
position sets; and the squares of the two scanned rows are never
modified by the removal. -/
theorem c6_thm (g : Grid) (d : Nat)
    (hpre : ∀ j ∈ List.range 9, xwPos g rowIdxs d j ≠ [] → 2 ≤ (xwPos g rowIdxs d j).length)
    (hchanged : (find_x_wing g d rowIdxs colIdxs).2 = true) :
    ∃ j k, j < k ∧ k < 9 ∧
      (xwPos g rowIdxs d j).length = 2 ∧ (xwPos g rowIdxs d k).length = 2 ∧
      (∀ x, x ∈ xwPos g rowIdxs d j ↔ x ∈ xwPos g rowIdxs d k) ∧
      (∀ i ∈ rowIdxs j, getSq (find_x_wing g d rowIdxs colIdxs).1 i = getSq g i) ∧
      (∀ i ∈ rowIdxs k, getSq (find_x_wing g d rowIdxs colIdxs).1 i = getSq g i) := by
  rcases find_x_wing_fired g d rowIdxs colIdxs hchanged with ⟨j, k, hmem, hlen, heq⟩
  rcases mem_pairsOf hmem with ⟨hj, hk, hjk⟩
  have hj9 : j < 9 := List.mem_range.mp (List.mem_filter.mp hj).1
  have hk9 : k < 9 := List.mem_range.mp (List.mem_filter.mp hk).1
  have hjne : xwPos g rowIdxs d j ≠ [] := by simpa using (List.mem_filter.mp hj).2
  have hkne : xwPos g rowIdxs d k ≠ [] := by simpa using (List.mem_filter.mp hk).2
  have hj2 : 2 ≤ (xwPos g rowIdxs d j).length := hpre j (List.mem_range.mpr hj9) hjne
  have hk2 : 2 ≤ (xwPos g rowIdxs d k).length := hpre k (List.mem_range.mpr hk9) hkne
  have hnodupj : (xwPos g rowIdxs d j).Nodup := List.Nodup.filter _ (List.nodup_range _)
  have hnodupk : (xwPos g rowIdxs d k).Nodup := List.Nodup.filter _ (List.nodup_range _)
  have hsubj : ∀ x ∈ xwPos g rowIdxs d j,
      x ∈ unionS (xwPos g rowIdxs d j) (xwPos g rowIdxs d k) :=
    fun x hx => mem_unionS.mpr (.inl hx)
  have hsubk : ∀ x ∈ xwPos g rowIdxs d k,
      x ∈ unionS (xwPos g rowIdxs d j) (xwPos g rowIdxs d k) :=
    fun x hx => mem_unionS.mpr (.inr hx)
  rcases subset_two_eq hnodupj hj2 hsubj hlen with ⟨hjlen, hjiff⟩
  rcases subset_two_eq hnodupk hk2 hsubk hlen with ⟨hklen, hkiff⟩
  have hun9 : ∀ c ∈ unionS (xwPos g rowIdxs d j) (xwPos g rowIdxs d k), c < 9 := by
    intro c hc
    rcases mem_unionS.mp hc with h | h
    · exact List.mem_range.mp (List.mem_filter.mp h).1
    · exact List.mem_range.mp (List.mem_filter.mp h).1
  refine ⟨j, k, hjk, hk9, hjlen, hklen, ?_, ?_, ?_⟩
  · intro x
    rw [hjiff x, hkiff x]
  · intro i hi
    rcases List.mem_map.mp hi with ⟨c, hc, hce⟩
    have hc9 : c < 9 := List.mem_range.mp hc
    have hrow : rowOf i = j := by
      rw [← hce]
      unfold rowOf
      omega
    rw [heq]
    exact xwApply_getSq_row hun9 (Or.inl hrow)
  · intro i hi
    rcases List.mem_map.mp hi with ⟨c, hc, hce⟩
    have hc9 : c < 9 := List.mem_range.mp hc
    have hrow : rowOf i = k := by
      rw [← hce]
      unfold rowOf
      omega
    rw [heq]
    exact xwApply_getSq_row hun9 (Or.inr hrow)

theorem c6_witness :
    ((∀ j ∈ List.range 9, xwPos c6w rowIdxs 1 j ≠ [] → 2 ≤ (xwPos c6w rowIdxs 1 j).length) ∧
     (find_x_wing c6w 1 rowIdxs colIdxs).2 = true) ∧
    (∃ j k, j < k ∧ k < 9 ∧
      (xwPos c6w rowIdxs 1 j).length = 2 ∧ (xwPos c6w rowIdxs 1 k).length = 2 ∧
      (∀ x, x ∈ xwPos c6w rowIdxs 1 j ↔ x ∈ xwPos c6w rowIdxs 1 k) ∧
      (∀ i ∈ rowIdxs j, getSq (find_x_wing c6w 1 rowIdxs colIdxs).1 i = getSq c6w i) ∧
      (∀ i ∈ rowIdxs k, getSq (find_x_wing c6w 1 rowIdxs colIdxs).1 i = getSq c6w i)) :=
  ⟨⟨by decide, by decide⟩, c6_thm c6w 1 (by decide) (by decide)⟩
